import Mathlib

/-!
# Verification of the BrowserControl core against its specification

This file shallowly embeds the core logic of the BrowserControl repository
(`src/core/browser_pool.py`, `src/core/element_finder.py`,
`src/core/tab_manager.py`, `src/core/planner.py`) as executable Lean
definitions and proves or refutes the frozen claims about it.

Modelling conventions:
* Python objects become structures; object identity of `BrowserInstance`
  values is represented by the numeric `instance_id` (the pool creates ids
  from a monotone counter, so ids are unique, which we carry as an invariant).
* Each `async with self.lock:` critical section of the pool becomes one
  atomic transition on the pool state; an interleaving of concurrent
  `get_browser_instance` / `release_browser_instance` calls is a list of
  such transitions (`PoolOp`), since the lock serializes them.
* Wall-clock readings (`asyncio.get_event_loop().time()`) are natural
  numbers in milliseconds supplied by the environment.
* `browser.is_connected()` is the boolean field `connected`; closing an
  instance is recorded in the `closed` log of the pool state.
* External collaborators (the LLM, the vision model, `difflib`'s
  `SequenceMatcher.ratio`) are oracle parameters of the functions that call
  them; the surrounding control flow is translated from the source.
-/

namespace BrowserControl

/-! ## Browser pool (`src/core/browser_pool.py`) -/

/-- `BrowserInstance`: wrapper for a browser with context and page
(`browser_pool.py`, class `BrowserInstance`).  The Playwright handles are
abstracted away; `connected` models `self.browser.is_connected()`. -/
structure BrowserInstance where
  instance_id : Nat
  in_use : Bool
  task_id : Option String
  error_count : Nat
  connected : Bool
  created_at : Nat
  last_used_at : Nat
  deriving Repr, DecidableEq

/-- `BrowserInstance.is_healthy`: `error_count < 3 and browser.is_connected()`. -/
def BrowserInstance.is_healthy (b : BrowserInstance) : Bool :=
  decide (b.error_count < 3) && b.connected

/-- State of a `BrowserPool`.  `closed` logs the ids of instances whose
`close()` was invoked (eviction or cleanup). -/
structure BrowserPool where
  max_browsers : Nat
  instances : List BrowserInstance
  instance_counter : Nat
  initialized : Bool
  closed : List Nat
  deriving Repr, DecidableEq

/-- The ids of the instances currently in the pool's `instances` list. -/
def BrowserPool.ids (p : BrowserPool) : List Nat :=
  p.instances.map (·.instance_id)

/-- `BrowserPool._cleanup_unhealthy_instances`: remove (and close) every
instance that is unhealthy and not in use. -/
def cleanup_unhealthy_instances (p : BrowserPool) : BrowserPool :=
  { p with
    instances := p.instances.filter fun i => i.is_healthy || i.in_use
    closed := p.closed ++
      ((p.instances.filter fun i => !i.is_healthy && !i.in_use).map (·.instance_id)) }

/-- The scan `for instance in self.instances: if not instance.in_use and
instance.is_healthy: ...` inside `get_browser_instance`: mark the first
idle healthy instance as in use and return it (the returned value is the
updated list entry, as in Python where the object is mutated in place). -/
def acquireScan (tid : String) (now : Nat) :
    List BrowserInstance → Option BrowserInstance × List BrowserInstance
  | [] => (none, [])
  | inst :: rest =>
    if !inst.in_use && inst.is_healthy then
      let inst' := { inst with in_use := true, task_id := some tid, last_used_at := now }
      (some inst', inst' :: rest)
    else
      let (r, rest') := acquireScan tid now rest
      (r, inst :: rest')

/-- The body of one `get_browser_instance` critical section, applied to the
pool state after `_cleanup_unhealthy_instances` already ran: scan for an
idle healthy instance, otherwise create a new instance when under
`max_browsers`.  `createOk` tells whether the `_create_browser_instance`
call (an external Playwright launch) succeeds; on failure the exception is
caught and the loop continues, but `_instance_counter` was already
incremented. -/
def tryAcquireCleaned (q : BrowserPool) (tid : String) (now : Nat) (createOk : Bool) :
    Option BrowserInstance × BrowserPool :=
  match acquireScan tid now q.instances with
  | (some inst, l) => (some inst, { q with instances := l })
  | (none, _) =>
    if q.instances.length < q.max_browsers then
      if createOk then
        let inst : BrowserInstance :=
          { instance_id := q.instance_counter + 1, in_use := true, task_id := some tid,
            error_count := 0, connected := true, created_at := now, last_used_at := now }
        (some inst, { q with instances := q.instances ++ [inst],
                             instance_counter := q.instance_counter + 1 })
      else
        (none, { q with instance_counter := q.instance_counter + 1 })
    else (none, q)

/-- One full iteration of `get_browser_instance`'s critical section: purge
unhealthy idle instances, then scan / create. -/
def tryAcquireLocked (p : BrowserPool) (tid : String) (now : Nat) (createOk : Bool) :
    Option BrowserInstance × BrowserPool :=
  tryAcquireCleaned (cleanup_unhealthy_instances p) tid now createOk

/-- The per-instance mutation performed by `release_browser_instance` on the
released instance: bump `error_count` when `had_error`, then mark idle. -/
def releaseUpdate (iid : Nat) (had_error : Bool) (now : Nat) (inst : BrowserInstance) :
    BrowserInstance :=
  if inst.instance_id = iid then
    let inst := if had_error then { inst with error_count := inst.error_count + 1 } else inst
    { inst with in_use := false, task_id := none, last_used_at := now }
  else inst

/-- The eviction test `instance.error_count >= 3` of
`release_browser_instance`, restricted to the released instance. -/
def evictPred (iid : Nat) (inst : BrowserInstance) : Bool :=
  inst.instance_id == iid && decide (3 ≤ inst.error_count)

/-- `BrowserPool.release_browser_instance`: increment `error_count` when
`had_error`, mark the instance idle, and evict (remove from the list and
close) when `error_count >= 3`.  The instance is designated by its id. -/
def release_browser_instance (p : BrowserPool) (iid : Nat) (had_error : Bool) (now : Nat) :
    BrowserPool :=
  { p with
    instances := (p.instances.map (releaseUpdate iid had_error now)).filter
      fun i => !(evictPred iid i)
    closed := p.closed ++
      (((p.instances.map (releaseUpdate iid had_error now)).filter (evictPred iid)).map
        (·.instance_id)) }

/-- One atomic pool transition: either one locked attempt inside a
`get_browser_instance` call, or one `release_browser_instance` call. -/
inductive PoolOp where
  | acquire (tid : String) (now : Nat) (createOk : Bool)
  | release (iid : Nat) (had_error : Bool) (now : Nat)
  deriving Repr, DecidableEq

/-- Apply one pool transition; also report the instance handed to the
acquiring caller, when any. -/
def poolStep (p : BrowserPool) : PoolOp → BrowserPool × Option BrowserInstance
  | .acquire tid now createOk =>
    let (r, p') := tryAcquireLocked p tid now createOk
    (p', r)
  | .release iid had_error now => (release_browser_instance p iid had_error now, none)

/-- Run a sequence of pool transitions, collecting the ids of all instances
handed out to acquiring callers along the way. -/
def execOps (p : BrowserPool) : List PoolOp → BrowserPool × List Nat
  | [] => (p, [])
  | op :: rest =>
    let (p', r) := poolStep p op
    let (pf, ids) := execOps p' rest
    (pf, (r.map (·.instance_id)).toList ++ ids)

/-! ### Pool invariants and helper lemmas -/

/-- The id / error count / connectedness projection of an instance: the part
of its state that `acquireScan` never modifies. -/
def instCore (i : BrowserInstance) : Nat × Nat × Bool :=
  (i.instance_id, i.error_count, i.connected)

/-- Well-formedness of a pool state: every instance id was produced by the
counter, and ids are pairwise distinct (Python object identity). -/
def PoolWF (p : BrowserPool) : Prop :=
  (∀ i ∈ p.ids, i ≤ p.instance_counter) ∧ p.ids.Nodup

instance (p : BrowserPool) : Decidable (PoolWF p) := by
  unfold PoolWF
  exact instDecidableAnd

/-- The scan changes no instance's id, error count or connectedness. -/
theorem acquireScan_map_core (tid : String) (now : Nat) (l : List BrowserInstance) :
    ((acquireScan tid now l).2).map instCore = l.map instCore := by
  induction l with
  | nil => rfl
  | cons inst rest ih =>
    simp only [acquireScan]
    split
    · simp [instCore]
    · simp [ih]

/-- The scan preserves the list of instance ids. -/
theorem acquireScan_map_id (tid : String) (now : Nat) (l : List BrowserInstance) :
    ((acquireScan tid now l).2).map (·.instance_id) = l.map (·.instance_id) := by
  have h := acquireScan_map_core tid now l
  have h1 : ((acquireScan tid now l).2).map (·.instance_id)
      = (((acquireScan tid now l).2).map instCore).map (·.1) := by
    simp [List.map_map, instCore, Function.comp]
  have h2 : l.map (·.instance_id) = (l.map instCore).map (·.1) := by
    simp [List.map_map, instCore, Function.comp]
  rw [h1, h2, h]

/-- The scan does not change the number of instances. -/
theorem acquireScan_length (tid : String) (now : Nat) (l : List BrowserInstance) :
    ((acquireScan tid now l).2).length = l.length := by
  have h := acquireScan_map_id tid now l
  have := congrArg List.length h
  simpa using this

/-- An instance handed out by the scan was idle and healthy at selection
time and is marked in use in the returned value. -/
theorem acquireScan_sound (tid : String) (now : Nat) (l : List BrowserInstance)
    (r : BrowserInstance) (h : (acquireScan tid now l).1 = some r) :
    ∃ e ∈ l, e.instance_id = r.instance_id ∧ e.in_use = false ∧
      e.is_healthy = true ∧ r.in_use = true := by
  induction l with
  | nil => simp [acquireScan] at h
  | cons inst rest ih =>
    simp only [acquireScan] at h
    by_cases hc : (!inst.in_use && inst.is_healthy) = true
    · rw [if_pos hc] at h
      simp only [Option.some.injEq] at h
      subst h
      refine ⟨inst, List.mem_cons_self _ _, rfl, ?_, ?_, rfl⟩
      · cases hu : inst.in_use <;> simp [hu] at hc ⊢
      · cases hh : inst.is_healthy <;> simp [hh] at hc ⊢
    · rw [if_neg hc] at h
      simp only at h
      obtain ⟨e, he, h1, h2, h3, h4⟩ := ih h
      exact ⟨e, List.mem_cons_of_mem _ he, h1, h2, h3, h4⟩

/-- An in-use entry survives the scan untouched. -/
theorem acquireScan_preserves_in_use (tid : String) (now : Nat)
    (l : List BrowserInstance) (e : BrowserInstance)
    (he : e ∈ l) (hu : e.in_use = true) : e ∈ (acquireScan tid now l).2 := by
  induction l with
  | nil => simp at he
  | cons inst rest ih =>
    simp only [acquireScan]
    by_cases hc : (!inst.in_use && inst.is_healthy) = true
    · rw [if_pos hc]
      rcases List.mem_cons.mp he with h | h
      · exfalso
        subst h
        simp [hu] at hc
      · exact List.mem_cons_of_mem _ h
    · rw [if_neg hc]
      rcases List.mem_cons.mp he with h | h
      · subst h; exact List.mem_cons_self _ _
      · exact List.mem_cons_of_mem _ (ih h)

/-- `cleanup_unhealthy_instances` keeps every healthy-or-in-use entry. -/
theorem cleanup_keeps (p : BrowserPool) (e : BrowserInstance)
    (he : e ∈ p.instances) (h : (e.is_healthy || e.in_use) = true) :
    e ∈ (cleanup_unhealthy_instances p).instances :=
  List.mem_filter.mpr ⟨he, h⟩

/-- Cleanup only removes entries: its instance list is a sublist. -/
theorem cleanup_sublist (p : BrowserPool) :
    (cleanup_unhealthy_instances p).instances.Sublist p.instances :=
  List.filter_sublist _

/-- Cleanup shrinks the id list. -/
theorem cleanup_ids_sublist (p : BrowserPool) :
    (cleanup_unhealthy_instances p).ids.Sublist p.ids :=
  (cleanup_sublist p).map _

theorem PoolWF.cleanup {p : BrowserPool} (h : PoolWF p) :
    PoolWF (cleanup_unhealthy_instances p) :=
  ⟨fun i hi => h.1 i ((cleanup_ids_sublist p).mem hi), h.2.sublist (cleanup_ids_sublist p)⟩

/-- `releaseUpdate` never changes the instance id. -/
theorem releaseUpdate_id (iid : Nat) (he' : Bool) (now : Nat) (i : BrowserInstance) :
    (releaseUpdate iid he' now i).instance_id = i.instance_id := by
  unfold releaseUpdate
  by_cases h : i.instance_id = iid
  · rw [if_pos h]
    cases he' <;> rfl
  · rw [if_neg h]

/-- `releaseUpdate` leaves instances with a different id untouched. -/
theorem releaseUpdate_other (iid : Nat) (he' : Bool) (now : Nat) (i : BrowserInstance)
    (h : i.instance_id ≠ iid) : releaseUpdate iid he' now i = i := by
  unfold releaseUpdate
  rw [if_neg h]

/-- Mapping `releaseUpdate` over a list preserves the id list. -/
theorem release_map_id (iid : Nat) (he' : Bool) (now : Nat) (l : List BrowserInstance) :
    (l.map (releaseUpdate iid he' now)).map (·.instance_id) = l.map (·.instance_id) := by
  rw [List.map_map]
  apply List.map_congr_left
  intro a _
  exact releaseUpdate_id iid he' now a

/-- Ids of a filtered instance list are among the ids of the original. -/
theorem ids_filter_subset (l : List BrowserInstance) (f : BrowserInstance → Bool) (i : Nat)
    (hi : i ∈ (l.filter f).map (·.instance_id)) : i ∈ l.map (·.instance_id) := by
  simp only [List.mem_map] at hi ⊢
  obtain ⟨e, he, rfl⟩ := hi
  exact ⟨e, List.mem_of_mem_filter he, rfl⟩

/-- Filtering preserves nodup of the id list. -/
theorem ids_filter_nodup (l : List BrowserInstance) (f : BrowserInstance → Bool)
    (h : (l.map (·.instance_id)).Nodup) : ((l.filter f).map (·.instance_id)).Nodup :=
  h.sublist ((List.filter_sublist l).map _)

/-- Releasing instance `iid` does not touch entries with a different id. -/
theorem release_preserves_other (p : BrowserPool) (iid : Nat) (he' : Bool) (now : Nat)
    (e : BrowserInstance) (hmem : e ∈ p.instances) (hne : e.instance_id ≠ iid) :
    e ∈ (release_browser_instance p iid he' now).instances := by
  unfold release_browser_instance
  apply List.mem_filter.mpr
  refine ⟨?_, ?_⟩
  · have hmm := List.mem_map_of_mem (releaseUpdate iid he' now) hmem
    rwa [releaseUpdate_other iid he' now e hne] at hmm
  · simp [evictPred, hne]

/-- Well-formedness is preserved by a release. -/
theorem PoolWF.release {p : BrowserPool} (h : PoolWF p)
    (iid : Nat) (he' : Bool) (now : Nat) :
    PoolWF (release_browser_instance p iid he' now) := by
  have hids := release_map_id iid he' now p.instances
  constructor
  · intro i hi
    have hsub : i ∈ (p.instances.map (releaseUpdate iid he' now)).map (·.instance_id) :=
      ids_filter_subset _ _ i hi
    rw [hids] at hsub
    exact h.1 i hsub
  · refine ids_filter_nodup _ _ ?_
    rw [hids]
    exact h.2

/-- A release never grows the instance list. -/
theorem release_length (p : BrowserPool) (iid : Nat) (he' : Bool) (now : Nat) :
    (release_browser_instance p iid he' now).instances.length ≤ p.instances.length := by
  unfold release_browser_instance
  calc ((p.instances.map (releaseUpdate iid he' now)).filter _).length
      ≤ (p.instances.map (releaseUpdate iid he' now)).length :=
        (List.filter_sublist _).length_le
    _ = p.instances.length := List.length_map _ _

/-- Well-formedness is preserved by one post-cleanup acquisition attempt;
the counter never decreases and the capacity field is unchanged. -/
theorem tryAcquireCleaned_wf {q : BrowserPool} (hc : PoolWF q)
    (tid : String) (now : Nat) (createOk : Bool) :
    PoolWF (tryAcquireCleaned q tid now createOk).2 ∧
      q.instance_counter ≤ (tryAcquireCleaned q tid now createOk).2.instance_counter ∧
      (tryAcquireCleaned q tid now createOk).2.max_browsers = q.max_browsers := by
  unfold tryAcquireCleaned
  rcases hscan : acquireScan tid now q.instances with ⟨r, l⟩
  cases r with
  | some inst =>
    have hids : l.map (·.instance_id) = q.instances.map (·.instance_id) := by
      have h2 := acquireScan_map_id tid now q.instances
      rwa [hscan] at h2
    refine ⟨⟨?_, ?_⟩, le_refl _, rfl⟩
    · intro i hi
      simp only [BrowserPool.ids] at hi
      rw [hids] at hi
      exact hc.1 i hi
    · show (l.map (·.instance_id)).Nodup
      rw [hids]
      exact hc.2
  | none =>
    dsimp only
    split
    · split
      · refine ⟨⟨?_, ?_⟩, Nat.le_succ _, rfl⟩
        · intro i hi
          simp only [BrowserPool.ids, List.map_append, List.map_cons, List.map_nil,
            List.mem_append, List.mem_cons, List.not_mem_nil, or_false] at hi
          rcases hi with hi | hi
          · exact le_trans (hc.1 i hi) (Nat.le_succ _)
          · exact le_of_eq hi
        · simp only [BrowserPool.ids, List.map_append, List.map_cons, List.map_nil]
          rw [List.nodup_append]
          refine ⟨hc.2, List.nodup_singleton _, ?_⟩
          intro a ha hb
          simp only [List.mem_cons, List.not_mem_nil, or_false] at hb
          subst hb
          have := hc.1 _ ha
          omega
      · exact ⟨⟨fun i hi => le_trans (hc.1 i hi) (Nat.le_succ _), hc.2⟩,
          Nat.le_succ _, rfl⟩
    · exact ⟨hc, le_refl _, rfl⟩

/-- One post-cleanup acquisition attempt keeps the instance count within
`max_browsers`. -/
theorem tryAcquireCleaned_length {q : BrowserPool}
    (hlen : q.instances.length ≤ q.max_browsers)
    (tid : String) (now : Nat) (createOk : Bool) :
    (tryAcquireCleaned q tid now createOk).2.instances.length ≤
      (tryAcquireCleaned q tid now createOk).2.max_browsers := by
  unfold tryAcquireCleaned
  rcases hscan : acquireScan tid now q.instances with ⟨r, l⟩
  cases r with
  | some inst =>
    have hl : l.length = q.instances.length := by
      have h2 := acquireScan_length tid now q.instances
      rwa [hscan] at h2
    dsimp only
    omega
  | none =>
    dsimp only
    split
    · split
      · dsimp only
        simp only [List.length_append, List.length_cons, List.length_nil]
        omega
      · simpa using hlen
    · simpa using hlen

/-- Well-formedness is preserved by every atomic pool transition, the
counter is monotone and the capacity field is stable. -/
theorem PoolWF.step {p : BrowserPool} (h : PoolWF p) (op : PoolOp) :
    PoolWF (poolStep p op).1 ∧ p.instance_counter ≤ (poolStep p op).1.instance_counter ∧
      (poolStep p op).1.max_browsers = p.max_browsers := by
  cases op with
  | acquire tid now createOk =>
    have hta := tryAcquireCleaned_wf h.cleanup tid now createOk
    simpa [poolStep, tryAcquireLocked] using hta
  | release iid he' now => exact ⟨h.release iid he' now, le_refl _, rfl⟩

/-- Every atomic pool transition keeps the instance count within the
capacity. -/
theorem poolStep_length {p : BrowserPool} (hlen : p.instances.length ≤ p.max_browsers)
    (op : PoolOp) :
    (poolStep p op).1.instances.length ≤ (poolStep p op).1.max_browsers := by
  cases op with
  | acquire tid now createOk =>
    have hq : (cleanup_unhealthy_instances p).instances.length ≤
        (cleanup_unhealthy_instances p).max_browsers :=
      le_trans (cleanup_sublist p).length_le hlen
    simpa [poolStep, tryAcquireLocked] using
      tryAcquireCleaned_length hq tid now createOk
  | release iid he' now =>
    simpa [poolStep] using le_trans (release_length p iid he' now) hlen

/-! ### Exclusive checkout (C3) -/

/-- Instance `x` is currently checked out: it sits in the pool's list with
`in_use = true`. -/
def heldBy (p : BrowserPool) (x : Nat) : Prop :=
  ∃ e ∈ p.instances, e.instance_id = x ∧ e.in_use = true

instance (p : BrowserPool) (x : Nat) : Decidable (heldBy p x) := by
  unfold heldBy
  exact List.decidableBEx _ _

/-- `poolStep` on an acquire op, unfolded. -/
theorem poolStep_acquire (p : BrowserPool) (tid : String) (now : Nat) (ok : Bool) :
    poolStep p (.acquire tid now ok)
      = ((tryAcquireLocked p tid now ok).2, (tryAcquireLocked p tid now ok).1) := rfl

/-- `execOps` on a cons, unfolded. -/
theorem execOps_cons (p : BrowserPool) (op : PoolOp) (rest : List PoolOp) :
    execOps p (op :: rest)
      = ((execOps (poolStep p op).1 rest).1,
         ((poolStep p op).2.map (·.instance_id)).toList ++
           (execOps (poolStep p op).1 rest).2) := rfl

/-- A held instance stays held over one post-cleanup acquisition attempt,
and the attempt never hands that instance out again. -/
theorem tryAcquireCleaned_held {q : BrowserPool} (hqwf : PoolWF q) {x : Nat}
    (hx : heldBy q x) (tid : String) (now : Nat) (createOk : Bool) :
    heldBy (tryAcquireCleaned q tid now createOk).2 x ∧
      ∀ r, (tryAcquireCleaned q tid now createOk).1 = some r → r.instance_id ≠ x := by
  obtain ⟨e, he, hid, hu⟩ := hx
  have hxid : x ∈ q.ids := by
    simp only [BrowserPool.ids, List.mem_map]
    exact ⟨e, he, hid⟩
  unfold tryAcquireCleaned
  rcases hscan : acquireScan tid now q.instances with ⟨r0, l⟩
  cases r0 with
  | some inst =>
    constructor
    · refine ⟨e, ?_, hid, hu⟩
      have hkeep := acquireScan_preserves_in_use tid now q.instances e he hu
      rwa [hscan] at hkeep
    · intro r hr hxr
      simp only [Option.some.injEq] at hr
      subst hr
      have hsnd : (acquireScan tid now q.instances).1 = some inst := by rw [hscan]
      obtain ⟨e', he', hid', hu', _, _⟩ := acquireScan_sound tid now q.instances inst hsnd
      have heq : e' = e :=
        List.inj_on_of_nodup_map hqwf.2 he' he (hid'.trans (hxr.trans hid.symm))
      rw [heq, hu] at hu'
      simp at hu'
  | none =>
    dsimp only
    split
    · split
      · constructor
        · exact ⟨e, List.mem_append_left _ he, hid, hu⟩
        · intro r hr hxr
          simp only [Option.some.injEq] at hr
          subst hr
          have hle := hqwf.1 x hxid
          simp only at hxr
          omega
      · exact ⟨⟨e, he, hid, hu⟩, fun r hr => by simp at hr⟩
    · exact ⟨⟨e, he, hid, hu⟩, fun r hr => by simp at hr⟩

/-- A held instance stays held over any transition that is not its own
release, and such a transition never hands it out. -/
theorem heldBy_step {p : BrowserPool} (hwf : PoolWF p) {x : Nat} (hx : heldBy p x)
    (op : PoolOp) (hop : ∀ he now, op ≠ .release x he now) :
    heldBy (poolStep p op).1 x ∧
      ∀ r, (poolStep p op).2 = some r → r.instance_id ≠ x := by
  cases op with
  | acquire tid now createOk =>
    have hq : heldBy (cleanup_unhealthy_instances p) x := by
      obtain ⟨e, he, hid, hu⟩ := hx
      exact ⟨e, cleanup_keeps p e he (by simp [hu]), hid, hu⟩
    have h := tryAcquireCleaned_held hwf.cleanup hq tid now createOk
    rw [poolStep_acquire]
    exact ⟨h.1, h.2⟩
  | release iid he' now =>
    have hne : x ≠ iid := by
      intro heq
      exact hop he' now (by rw [heq])
    obtain ⟨e, he, hid, hu⟩ := hx
    refine ⟨⟨e, ?_, hid, hu⟩, fun r hr => by simp [poolStep] at hr⟩
    exact release_preserves_other p iid he' now e he (by rw [hid]; exact hne)

/-- Trace form of pool exclusivity: while `x` is held and never released,
no interleaved transition hands `x` to any caller, and `x` stays held. -/
theorem heldBy_trace (x : Nat) :
    ∀ (ops : List PoolOp) (p : BrowserPool), PoolWF p → heldBy p x →
      (∀ he now, PoolOp.release x he now ∉ ops) →
      heldBy (execOps p ops).1 x ∧ x ∉ (execOps p ops).2 := by
  intro ops
  induction ops with
  | nil =>
    intro p hwf hx hops
    exact ⟨hx, by simp [execOps]⟩
  | cons op rest ih =>
    intro p hwf hx hops
    have hopne : ∀ he now, op ≠ .release x he now := by
      intro he now heq
      exact hops he now (by rw [heq]; exact List.mem_cons_self _ _)
    have hstep := heldBy_step hwf hx op hopne
    have hwf' := (hwf.step op).1
    have hrest : ∀ he now, PoolOp.release x he now ∉ rest := fun he now hmem =>
      hops he now (List.mem_cons_of_mem _ hmem)
    have ihres := ih (poolStep p op).1 hwf' hstep.1 hrest
    rw [execOps_cons]
    refine ⟨ihres.1, ?_⟩
    intro hmem
    simp only [List.mem_append] at hmem
    rcases hmem with hmem | hmem
    · cases hr : (poolStep p op).2 with
      | none => rw [hr] at hmem; simp at hmem
      | some r =>
        rw [hr] at hmem
        simp only [Option.map_some', Option.toList_some, List.mem_singleton] at hmem
        exact hstep.2 r hr hmem.symm
    · exact ihres.2 hmem

/-! ### Error-count tracking and eviction (C4, C10) -/

/-- Instance `x` sits in the pool's list with error count `c` and a
connected browser. -/
def inPoolWithCount (p : BrowserPool) (x c : Nat) : Prop :=
  ∃ e ∈ p.instances, e.instance_id = x ∧ e.error_count = c ∧ e.connected = true

instance (p : BrowserPool) (x c : Nat) : Decidable (inPoolWithCount p x c) := by
  unfold inPoolWithCount
  exact List.decidableBEx _ _

theorem instCore_eq_iff (e : BrowserInstance) (x c : Nat) (b : Bool) :
    instCore e = (x, c, b) ↔
      e.instance_id = x ∧ e.error_count = c ∧ e.connected = b := by
  simp [instCore, Prod.ext_iff]

/-- The scan preserves every instance's id / error count / connectedness. -/
theorem scan_core_mem (tid : String) (now : Nat) (l : List BrowserInstance)
    {x c : Nat} (h : ∃ e ∈ l, instCore e = (x, c, true)) :
    ∃ e' ∈ (acquireScan tid now l).2, instCore e' = (x, c, true) := by
  obtain ⟨e, he, hco⟩ := h
  have hmem : (x, c, true) ∈ l.map instCore := by
    rw [← hco]
    exact List.mem_map_of_mem _ he
  rw [← acquireScan_map_core tid now l] at hmem
  simpa [List.mem_map] using hmem

/-- One post-cleanup acquisition attempt preserves id / count /
connectedness of every present instance. -/
theorem tryAcquireCleaned_count {q : BrowserPool} {x c : Nat}
    (hc : ∃ e ∈ q.instances, instCore e = (x, c, true))
    (tid : String) (now : Nat) (createOk : Bool) :
    ∃ e' ∈ (tryAcquireCleaned q tid now createOk).2.instances,
      instCore e' = (x, c, true) := by
  unfold tryAcquireCleaned
  rcases hscan : acquireScan tid now q.instances with ⟨r0, l⟩
  cases r0 with
  | some inst =>
    have h2 := scan_core_mem tid now q.instances hc
    rw [hscan] at h2
    exact h2
  | none =>
    obtain ⟨e, he, hco⟩ := hc
    dsimp only
    split
    · split
      · exact ⟨e, List.mem_append_left _ he, hco⟩
      · exact ⟨e, he, hco⟩
    · exact ⟨e, he, hco⟩

theorem releaseUpdate_self_false (x : Nat) (now : Nat) (e : BrowserInstance)
    (hid : e.instance_id = x) :
    releaseUpdate x false now e
      = { e with in_use := false, task_id := none, last_used_at := now } := by
  unfold releaseUpdate
  rw [if_pos hid]
  rfl

theorem releaseUpdate_self_true (x : Nat) (now : Nat) (e : BrowserInstance)
    (hid : e.instance_id = x) :
    releaseUpdate x true now e
      = { e with error_count := e.error_count + 1, in_use := false, task_id := none, last_used_at := now } := by
  unfold releaseUpdate
  rw [if_pos hid]
  rfl

/-- An error-free release of `x` returns it to the pool with its error
count unchanged. -/
theorem release_false_keeps {p : BrowserPool} {x c : Nat}
    (e : BrowserInstance) (he : e ∈ p.instances) (hid : e.instance_id = x)
    (hcnt : e.error_count = c) (hconn : e.connected = true) (hlt : c < 3) (now : Nat) :
    inPoolWithCount (release_browser_instance p x false now) x c := by
  refine ⟨{ e with in_use := false, task_id := none, last_used_at := now }, ?_,
    by simpa using hid, by simpa using hcnt, by simpa using hconn⟩
  unfold release_browser_instance
  apply List.mem_filter.mpr
  constructor
  · have hmm := List.mem_map_of_mem (releaseUpdate x false now) he
    rwa [releaseUpdate_self_false x now e hid] at hmm
  · simp only [evictPred]
    simp [hid, hcnt]
    omega

/-- An error release of `x` that keeps it under the threshold returns it to
the pool with its error count incremented. -/
theorem release_true_keeps {p : BrowserPool} {x c : Nat}
    (e : BrowserInstance) (he : e ∈ p.instances) (hid : e.instance_id = x)
    (hcnt : e.error_count = c) (hconn : e.connected = true) (hlt : c + 1 < 3) (now : Nat) :
    inPoolWithCount (release_browser_instance p x true now) x (c + 1) := by
  refine ⟨{ e with error_count := e.error_count + 1, in_use := false, task_id := none, last_used_at := now }, ?_, by simpa using hid, by simpa using hcnt, by simpa using hconn⟩
  unfold release_browser_instance
  apply List.mem_filter.mpr
  constructor
  · have hmm := List.mem_map_of_mem (releaseUpdate x true now) he
    rwa [releaseUpdate_self_true x now e hid] at hmm
  · simp only [evictPred]
    simp [hid, hcnt]
    omega

/-- An error release of an instance whose count is already at least 2
evicts it: it leaves the instance list and its `close()` is logged. -/
theorem release_evicts {p : BrowserPool} (hwf : PoolWF p) {x c : Nat}
    (e : BrowserInstance) (he : e ∈ p.instances) (hid : e.instance_id = x)
    (hcnt : e.error_count = c) (h2 : 2 ≤ c) (now : Nat) :
    x ∉ (release_browser_instance p x true now).ids ∧
      x ∈ (release_browser_instance p x true now).closed := by
  constructor
  · intro hx
    simp only [release_browser_instance, BrowserPool.ids, List.mem_map] at hx
    obtain ⟨e', he', hid'⟩ := hx
    have he'' := List.mem_of_mem_filter he'
    have hfilt := List.of_mem_filter he'
    obtain ⟨a, ha, hae⟩ := List.mem_map.mp he''
    have haid : a.instance_id = x := by
      have hpres := releaseUpdate_id x true now a
      rw [hae] at hpres
      rw [← hpres]
      exact hid'
    have hax : a = e :=
      List.inj_on_of_nodup_map hwf.2 ha he (haid.trans hid.symm)
    subst hax
    rw [releaseUpdate_self_true x now a haid] at hae
    rw [← hae] at hfilt
    simp [evictPred, haid, hcnt] at hfilt
    omega
  · simp only [release_browser_instance, List.mem_append]
    right
    apply List.mem_map.mpr
    refine ⟨releaseUpdate x true now e, ?_, ?_⟩
    · apply List.mem_filter.mpr
      refine ⟨List.mem_map_of_mem _ he, ?_⟩
      rw [releaseUpdate_self_true x now e hid]
      simp [evictPred, hid, hcnt]
      omega
    · rw [releaseUpdate_id x true now e]
      exact hid

/-- Any transition that is not an error release of `x` leaves `x`'s error
count (and connectedness) unchanged, as long as `x` is healthy. -/
theorem count_step {p : BrowserPool} (hwf : PoolWF p) {x c : Nat}
    (hc : inPoolWithCount p x c) (hlt : c < 3) (op : PoolOp)
    (hop : ∀ now, op ≠ .release x true now) :
    inPoolWithCount (poolStep p op).1 x c := by
  obtain ⟨e, he, hid, hcnt, hconn⟩ := hc
  have hhealthy : e.is_healthy = true := by
    simp [BrowserInstance.is_healthy, hconn, hcnt, hlt]
  cases op with
  | acquire tid now createOk =>
    rw [poolStep_acquire]
    have heq : e ∈ (cleanup_unhealthy_instances p).instances :=
      cleanup_keeps p e he (by simp [hhealthy])
    have h := tryAcquireCleaned_count
      (q := cleanup_unhealthy_instances p)
      ⟨e, heq, (instCore_eq_iff e x c true).mpr ⟨hid, hcnt, hconn⟩⟩ tid now createOk
    obtain ⟨e', he', hco⟩ := h
    obtain ⟨h1, h2, h3⟩ := (instCore_eq_iff e' x c true).mp hco
    exact ⟨e', he', h1, h2, h3⟩
  | release iid he' now =>
    by_cases hix : iid = x
    · subst hix
      cases he' with
      | true => exact absurd rfl (hop now)
      | false =>
        exact release_false_keeps e he hid hcnt hconn hlt now
    · refine ⟨e, ?_, hid, hcnt, hconn⟩
      exact release_preserves_other p iid he' now e he (by rw [hid]; exact fun h => hix h.symm)

/-- Well-formedness is preserved across any transition sequence. -/
theorem execOps_wf :
    ∀ (ops : List PoolOp) (p : BrowserPool), PoolWF p → PoolWF (execOps p ops).1 := by
  intro ops
  induction ops with
  | nil => intro p hwf; exact hwf
  | cons op rest ih =>
    intro p hwf
    rw [execOps_cons]
    exact ih _ (hwf.step op).1

/-- Trace form: a healthy instance's error count is unchanged by any
transition sequence that contains no error release of it. -/
theorem count_trace (x c : Nat) (hlt : c < 3) :
    ∀ (ops : List PoolOp) (p : BrowserPool), PoolWF p → inPoolWithCount p x c →
      (∀ now, PoolOp.release x true now ∉ ops) →
      inPoolWithCount (execOps p ops).1 x c := by
  intro ops
  induction ops with
  | nil => intro p _ hc _; exact hc
  | cons op rest ih =>
    intro p hwf hc hops
    have hopne : ∀ now, op ≠ .release x true now := by
      intro now heq
      exact hops now (by rw [heq]; exact List.mem_cons_self _ _)
    rw [execOps_cons]
    exact ih _ (hwf.step op).1 (count_step hwf hc hlt op hopne)
      (fun now hmem => hops now (List.mem_cons_of_mem _ hmem))

/-! ### Evicted instances never return (C4, C10) -/

/-- Instance `x` is gone from the pool: no entry carries its id, and its id
is within the range the counter has already produced (so no freshly created
instance can ever reuse it). -/
def goneFrom (p : BrowserPool) (x : Nat) : Prop :=
  x ∉ p.ids ∧ x ≤ p.instance_counter

instance (p : BrowserPool) (x : Nat) : Decidable (goneFrom p x) := by
  unfold goneFrom
  exact instDecidableAnd

/-- One post-cleanup acquisition attempt neither revives nor hands out a
gone instance. -/
theorem tryAcquireCleaned_gone {q : BrowserPool} {x : Nat} (h : goneFrom q x)
    (tid : String) (now : Nat) (createOk : Bool) :
    goneFrom (tryAcquireCleaned q tid now createOk).2 x ∧
      ∀ r, (tryAcquireCleaned q tid now createOk).1 = some r → r.instance_id ≠ x := by
  obtain ⟨hids, hle⟩ := h
  unfold tryAcquireCleaned
  rcases hscan : acquireScan tid now q.instances with ⟨r0, l⟩
  cases r0 with
  | some inst =>
    have hlids : l.map (·.instance_id) = q.instances.map (·.instance_id) := by
      have h2 := acquireScan_map_id tid now q.instances
      rwa [hscan] at h2
    constructor
    · refine ⟨?_, hle⟩
      show x ∉ l.map (·.instance_id)
      rw [hlids]
      exact hids
    · intro r hr hrx
      simp only [Option.some.injEq] at hr
      subst hr
      have hsnd : (acquireScan tid now q.instances).1 = some inst := by rw [hscan]
      obtain ⟨e', he', hid', _, _, _⟩ := acquireScan_sound tid now q.instances inst hsnd
      apply hids
      show x ∈ q.instances.map (·.instance_id)
      apply List.mem_map.mpr
      exact ⟨e', he', hid'.trans hrx⟩

  | none =>
    dsimp only
    split
    · split
      · constructor
        · constructor
          · intro hmem
            simp only [BrowserPool.ids, List.map_append, List.map_cons, List.map_nil,
              List.mem_append, List.mem_cons, List.not_mem_nil, or_false] at hmem
            rcases hmem with hmem | hmem
            · exact hids hmem
            · omega
          · exact le_trans hle (Nat.le_succ _)
        · intro r hr hrx
          simp only [Option.some.injEq] at hr
          subst hr
          simp only at hrx
          omega
      · exact ⟨⟨hids, le_trans hle (Nat.le_succ _)⟩, fun r hr => by simp at hr⟩
    · exact ⟨⟨hids, hle⟩, fun r hr => by simp at hr⟩

/-- Any transition keeps a gone instance gone and never hands it out. -/
theorem goneFrom_step {p : BrowserPool} {x : Nat} (h : goneFrom p x) (op : PoolOp) :
    goneFrom (poolStep p op).1 x ∧
      ∀ r, (poolStep p op).2 = some r → r.instance_id ≠ x := by
  cases op with
  | acquire tid now createOk =>
    rw [poolStep_acquire]
    have hq : goneFrom (cleanup_unhealthy_instances p) x :=
      ⟨fun hmem => h.1 ((cleanup_ids_sublist p).mem hmem), h.2⟩
    exact tryAcquireCleaned_gone hq tid now createOk
  | release iid he' now =>
    refine ⟨⟨?_, h.2⟩, fun r hr => by simp [poolStep] at hr⟩
    intro hx
    apply h.1
    have hsub : x ∈ (p.instances.map (releaseUpdate iid he' now)).map (·.instance_id) :=
      ids_filter_subset _ _ x hx
    rwa [release_map_id] at hsub

/-- Trace form: a gone instance is never handed to any caller afterwards. -/
theorem gone_trace (x : Nat) :
    ∀ (ops : List PoolOp) (p : BrowserPool), goneFrom p x →
      goneFrom (execOps p ops).1 x ∧ x ∉ (execOps p ops).2 := by
  intro ops
  induction ops with
  | nil => intro p h; exact ⟨h, by simp [execOps]⟩
  | cons op rest ih =>
    intro p h
    have hstep := goneFrom_step h op
    have ihres := ih (poolStep p op).1 hstep.1
    rw [execOps_cons]
    refine ⟨ihres.1, ?_⟩
    intro hmem
    simp only [List.mem_append] at hmem
    rcases hmem with hmem | hmem
    · cases hr : (poolStep p op).2 with
      | none => rw [hr] at hmem; simp at hmem
      | some r =>
        rw [hr] at hmem
        simp only [Option.map_some', Option.toList_some, List.mem_singleton] at hmem
        exact hstep.2 r hr hmem.symm
    · exact ihres.2 hmem

/-! ### The `get_browser_instance` retry loop (C2) -/

/-- The typed errors of `get_browser_instance`:
`BrowserPoolError("Browser pool not initialized...")` and
`BrowserInstanceUnavailableError(f"No browser instance available within
{timeout}s. Current instances: {len(self.instances)}/{self.max_browsers}")`.
The `unavailable` payload carries exactly the data interpolated into the
Python message. -/
inductive PoolError where
  | notInitialized
  | unavailable (timeout : Nat) (current : Nat) (maxBrowsers : Nat)
  deriving Repr, DecidableEq

/-- The retry loop of `get_browser_instance`, at iteration `i`.  `views i`
is the pool state this call observes at its `i`-th iteration (concurrent
callers may change the pool while the lock is released during the 0.5 s
sleep); `createOk i` tells whether a creation attempted at iteration `i`
succeeds.  Iteration `i` runs `500 * i` ms after `start_time`, and the
loop raises `unavailable` once the elapsed time exceeds `timeout` (ms),
reading the instance count at raise time. -/
def getBrowserInstanceFrom (tid : String) (timeout : Nat)
    (views : Nat → BrowserPool) (createOk : Nat → Bool) (i : Nat) :
    Except PoolError (BrowserInstance × BrowserPool) :=
  if timeout < 500 * i then
    .error (.unavailable timeout (views i).instances.length (views i).max_browsers)
  else
    match tryAcquireLocked (views i) tid (500 * i) (createOk i) with
    | (some inst, p') => .ok (inst, p')
    | (none, _) => getBrowserInstanceFrom tid timeout views createOk (i + 1)
termination_by timeout + 1 - 500 * i
decreasing_by
  simp_wf
  omega

/-- `get_browser_instance`: raise if the pool is not initialized, else run
the retry loop from elapsed time zero. -/
def get_browser_instance (tid : String) (timeout : Nat)
    (views : Nat → BrowserPool) (createOk : Nat → Bool) :
    Except PoolError (BrowserInstance × BrowserPool) :=
  if (views 0).initialized then getBrowserInstanceFrom tid timeout views createOk 0
  else .error .notInitialized

/-- The pool is at capacity with every instance checked out. -/
def poolExhausted (p : BrowserPool) : Prop :=
  p.instances.length = p.max_browsers ∧ ∀ e ∈ p.instances, e.in_use = true

instance (p : BrowserPool) : Decidable (poolExhausted p) := by
  unfold poolExhausted
  exact instDecidableAnd

/-- The scan finds nothing when every instance is checked out. -/
theorem acquireScan_none (tid : String) (now : Nat) (l : List BrowserInstance)
    (h : ∀ e ∈ l, e.in_use = true) : (acquireScan tid now l).1 = none := by
  induction l with
  | nil => rfl
  | cons inst rest ih =>
    simp only [acquireScan]
    have hu := h inst (List.mem_cons_self _ _)
    rw [if_neg (by simp [hu])]
    simp only
    exact ih fun e he => h e (List.mem_cons_of_mem _ he)

/-- An exhausted pool yields no instance from one locked attempt. -/
theorem tryAcquire_exhausted {p : BrowserPool} (h : poolExhausted p)
    (tid : String) (now : Nat) (createOk : Bool) :
    (tryAcquireLocked p tid now createOk).1 = none := by
  have hfilter : (cleanup_unhealthy_instances p).instances = p.instances := by
    simp only [cleanup_unhealthy_instances]
    apply List.filter_eq_self.mpr
    intro e he
    simp [h.2 e he]
  unfold tryAcquireLocked tryAcquireCleaned
  rw [hfilter]
  rcases hscan : acquireScan tid now p.instances with ⟨r, l⟩
  have hnone : r = none := by
    have := acquireScan_none tid now p.instances h.2
    rwa [hscan] at this
  subst hnone
  dsimp only
  rw [if_neg (by simp [cleanup_unhealthy_instances, h.1])]

/-- When the pool stays exhausted, the loop retries until `timeout` elapses
and then fails with `unavailable`, reporting the instance count and
capacity of the state observed at the failing iteration
`timeout / 500 + 1`. -/
theorem getFrom_exhausted (tid : String) (timeout : Nat)
    (views : Nat → BrowserPool) (createOk : Nat → Bool)
    (hex : ∀ i, poolExhausted (views i)) :
    ∀ d i, (timeout / 500 + 1) - i = d → i ≤ timeout / 500 + 1 →
      getBrowserInstanceFrom tid timeout views createOk i
        = .error (.unavailable timeout
            (views (timeout / 500 + 1)).instances.length
            (views (timeout / 500 + 1)).max_browsers) := by
  intro d
  induction d with
  | zero =>
    intro i h0 hle
    have hik : i = timeout / 500 + 1 := by omega
    subst hik
    unfold getBrowserInstanceFrom
    rw [if_pos (by omega)]
  | succ d ih =>
    intro i hd hle
    have h1 : 500 * i ≤ timeout := by omega
    unfold getBrowserInstanceFrom
    rw [if_neg (by omega)]
    rcases hres : tryAcquireLocked (views i) tid (500 * i) (createOk i) with ⟨r, p'⟩
    have hnone : r = none := by
      have := tryAcquire_exhausted (hex i) tid (500 * i) (createOk i)
      rwa [hres] at this
    subst hnone
    exact ih (i + 1) (by omega) (by omega)

/-- Every atomic transition preserves the configured capacity field. -/
theorem poolStep_max (p : BrowserPool) (op : PoolOp) :
    (poolStep p op).1.max_browsers = p.max_browsers := by
  cases op with
  | acquire tid now createOk =>
    rw [poolStep_acquire]
    unfold tryAcquireLocked tryAcquireCleaned
    rcases hscan : acquireScan tid now (cleanup_unhealthy_instances p).instances with ⟨r, l⟩
    cases r with
    | some inst => rfl
    | none =>
      dsimp only
      split
      · split <;> rfl
      · rfl
  | release iid he' now => rfl

/-- The capacity bound is an invariant of every transition sequence, and
the capacity field itself never changes. -/
theorem execOps_capacity :
    ∀ (ops : List PoolOp) (p : BrowserPool),
      p.instances.length ≤ p.max_browsers →
      (execOps p ops).1.instances.length ≤ (execOps p ops).1.max_browsers ∧
        (execOps p ops).1.max_browsers = p.max_browsers := by
  intro ops
  induction ops with
  | nil => intro p h; exact ⟨h, rfl⟩
  | cons op rest ih =>
    intro p h
    rw [execOps_cons]
    have hstep := poolStep_length h op
    have ihres := ih (poolStep p op).1 hstep
    exact ⟨ihres.1, ihres.2.trans (poolStep_max p op)⟩

/-! ## Claim C2: pool capacity and acquisition timeout -/

/-- **C2.** For every interleaving of `get_browser_instance` and
`release_browser_instance` critical sections on a pool whose instance
count starts within `max_browsers`, the number of `BrowserInstance`
objects in the pool's list never exceeds `max_browsers`; and a
`get_browser_instance` call that finds no idle healthy instance while the
pool is at capacity keeps retrying until its timeout elapses and then
raises `BrowserInstanceUnavailableError` whose message carries the current
instance count and `max_browsers`. -/
theorem claim_C2_pool_capacity_and_timeout :
    (∀ (p : BrowserPool) (ops : List PoolOp),
        p.instances.length ≤ p.max_browsers →
        (execOps p ops).1.instances.length ≤ p.max_browsers) ∧
      ∀ (tid : String) (timeout : Nat) (views : Nat → BrowserPool)
        (createOk : Nat → Bool),
        (∀ i, poolExhausted (views i)) → (views 0).initialized = true →
        get_browser_instance tid timeout views createOk
          = .error (.unavailable timeout
              (views (timeout / 500 + 1)).instances.length
              (views (timeout / 500 + 1)).max_browsers) := by
  constructor
  · intro p ops h
    have hcap := execOps_capacity ops p h
    exact hcap.2 ▸ hcap.1
  · intro tid timeout views createOk hex hinit
    unfold get_browser_instance
    rw [if_pos hinit]
    exact getFrom_exhausted tid timeout views createOk hex _ 0 rfl (by omega)

/-- A fresh initialized pool with capacity 1, for concrete runs. -/
def emptyPoolW : BrowserPool :=
  { max_browsers := 1, instances := [], instance_counter := 0,
    initialized := true, closed := [] }

/-- A concrete exhausted pool: one checked-out instance, capacity 1. -/
def exhaustedPoolW : BrowserPool :=
  { max_browsers := 1,
    instances := [{ instance_id := 1, in_use := true, task_id := some "a", error_count := 0, connected := true, created_at := 0, last_used_at := 0 }],
    instance_counter := 1, initialized := true, closed := [] }

theorem claim_C2_witness :
    (execOps emptyPoolW
        [PoolOp.acquire "a" 0 true, PoolOp.acquire "b" 500 true]).1.instances.length
        ≤ emptyPoolW.max_browsers ∧
      get_browser_instance "b" 700 (fun _ => exhaustedPoolW) (fun _ => true)
        = .error (.unavailable 700 1 1) :=
  ⟨claim_C2_pool_capacity_and_timeout.1 emptyPoolW
      [PoolOp.acquire "a" 0 true, PoolOp.acquire "b" 500 true] (by decide),
    claim_C2_pool_capacity_and_timeout.2 "b" 700 (fun _ => exhaustedPoolW)
      (fun _ => true) (fun _ => (by decide : poolExhausted exhaustedPoolW)) rfl⟩

/-! ## Claim C3: no double checkout -/

/-- The instance handed out by the scan is a member of the post-scan list. -/
theorem acquireScan_mem_result (tid : String) (now : Nat)
    (l0 : List BrowserInstance) (r : BrowserInstance) (l : List BrowserInstance)
    (h : acquireScan tid now l0 = (some r, l)) : r ∈ l := by
  induction l0 generalizing l with
  | nil => simp [acquireScan] at h
  | cons inst rest ih =>
    simp only [acquireScan] at h
    by_cases hc : (!inst.in_use && inst.is_healthy) = true
    · rw [if_pos hc] at h
      simp only [Prod.mk.injEq, Option.some.injEq] at h
      rw [← h.2, ← h.1]
      exact List.mem_cons_self _ _
    · rw [if_neg hc] at h
      rcases hscan : acquireScan tid now rest with ⟨r0, rest'⟩
      rw [hscan] at h
      simp only [Prod.mk.injEq] at h
      rw [← h.2]
      refine List.mem_cons_of_mem _ (ih rest' ?_)
      rw [hscan, h.1]

/-- **C3.** No two callers ever hold the same `BrowserInstance`:
a successful `get_browser_instance` critical section returns an instance
that is marked `in_use` (and held) in the post state, it only selects an
instance whose `in_use` flag was false at selection time (any same-id
entry of the scanned list was idle), and — trace form — an instance that
is held and not released is never returned to any other caller by any
interleaving of pool operations. -/
theorem claim_C3_exclusive_checkout :
    (∀ (p : BrowserPool) (tid : String) (now : Nat) (ok : Bool)
        (r : BrowserInstance) (p' : BrowserPool), PoolWF p →
        tryAcquireLocked p tid now ok = (some r, p') →
        r.in_use = true ∧ heldBy p' r.instance_id ∧
          ∀ e ∈ (cleanup_unhealthy_instances p).instances,
            e.instance_id = r.instance_id → e.in_use = false) ∧
      ∀ (x : Nat) (ops : List PoolOp) (p : BrowserPool), PoolWF p → heldBy p x →
        (∀ he now, PoolOp.release x he now ∉ ops) →
        x ∉ (execOps p ops).2 ∧ heldBy (execOps p ops).1 x := by
  constructor
  · intro p tid now ok r p' hwf hacq
    have hqwf : PoolWF (cleanup_unhealthy_instances p) := hwf.cleanup
    unfold tryAcquireLocked tryAcquireCleaned at hacq
    rcases hscan : acquireScan tid now (cleanup_unhealthy_instances p).instances
      with ⟨r0, l⟩
    rw [hscan] at hacq
    cases r0 with
    | some inst =>
      simp only [Prod.mk.injEq, Option.some.injEq] at hacq
      obtain ⟨hr, hp'⟩ := hacq
      subst hr
      have hsnd : (acquireScan tid now
          (cleanup_unhealthy_instances p).instances).1 = some inst := by rw [hscan]
      obtain ⟨e', he', hid', hu', _, hru⟩ :=
        acquireScan_sound tid now _ inst hsnd
      refine ⟨hru, ?_, ?_⟩
      · refine ⟨inst, ?_, rfl, hru⟩
        rw [← hp']
        exact acquireScan_mem_result tid now _ inst l hscan
      · intro e he hide
        have : e = e' :=
          List.inj_on_of_nodup_map hqwf.2 he he' (hide.trans hid'.symm)
        rw [this]
        exact hu'
    | none =>
      dsimp only at hacq
      split at hacq
      · split at hacq
        · simp only [Prod.mk.injEq, Option.some.injEq] at hacq
          obtain ⟨hr, hp'⟩ := hacq
          refine ⟨by rw [← hr], ?_, ?_⟩
          · refine ⟨r, ?_, rfl, by rw [← hr]⟩
            rw [← hp']
            exact List.mem_append_right _ (by rw [hr]; exact List.mem_cons_self _ _)
          · intro e he hide
            exfalso
            have hle := hqwf.1 e.instance_id
              (List.mem_map_of_mem (·.instance_id) he)
            rw [hide, ← hr] at hle
            have hle2 : (cleanup_unhealthy_instances p).instance_counter + 1
                ≤ (cleanup_unhealthy_instances p).instance_counter := hle
            omega
        · simp at hacq
      · simp at hacq
  · intro x ops p hwf hx hops
    have h := heldBy_trace x ops p hwf hx hops
    exact ⟨h.2, h.1⟩

/-- A pool holding one idle healthy instance, for the C3 witness. -/
def idlePoolW : BrowserPool :=
  { max_browsers := 2,
    instances := [{ instance_id := 1, in_use := false, task_id := none, error_count := 0, connected := true, created_at := 0, last_used_at := 0 }],
    instance_counter := 1, initialized := true, closed := [] }

theorem claim_C3_witness :
    ((tryAcquireLocked idlePoolW "a" 7 true).2.instances.map
        (fun e => (e.instance_id, e.in_use)) = [(1, true)]) ∧
      (1 : Nat) ∉ (execOps (tryAcquireLocked idlePoolW "a" 7 true).2
        [PoolOp.acquire "b" 9 true]).2 := by
  constructor
  · decide
  · have h := (claim_C3_exclusive_checkout.2 1 [PoolOp.acquire "b" 9 true]
      (tryAcquireLocked idlePoolW "a" 7 true).2 (by decide)
      ⟨{ instance_id := 1, in_use := true, task_id := some "a", error_count := 0, connected := true, created_at := 0, last_used_at := 7 }, by decide, rfl, rfl⟩
      (fun he now hmem => by simp at hmem))
    exact h.1

/-! ## Claims C4 and C10: error counting and eviction -/

/-- **C4.** An instance released with `had_error = true` three consecutive
times (no other release of it in between; arbitrary pool activity,
including re-acquisitions of it, may occur) is still in the pool after the
first and second error release, but the third error release removes it
from the `instances` list and closes it, and no subsequent
`get_browser_instance` critical section ever returns it to any caller. -/
theorem claim_C4_three_consecutive_errors_evict
    (p0 : BrowserPool) (hwf : PoolWF p0) (x : Nat)
    (e0 : BrowserInstance) (he0 : e0 ∈ p0.instances) (hid0 : e0.instance_id = x)
    (hcnt0 : e0.error_count = 0) (hconn0 : e0.connected = true)
    (ops1 ops2 ops3 : List PoolOp)
    (h1 : ∀ he now, PoolOp.release x he now ∉ ops1)
    (h2 : ∀ he now, PoolOp.release x he now ∉ ops2)
    (t1 t2 t3 : Nat) :
    let p1 := release_browser_instance (execOps p0 ops1).1 x true t1
    let p2 := release_browser_instance (execOps p1 ops2).1 x true t2
    let p3 := release_browser_instance p2 x true t3
    inPoolWithCount p1 x 1 ∧ inPoolWithCount p2 x 2 ∧
      x ∉ p3.ids ∧ x ∈ p3.closed ∧ x ∉ (execOps p3 ops3).2 := by
  intro p1 p2 p3
  have hwf1 : PoolWF (execOps p0 ops1).1 := execOps_wf ops1 p0 hwf
  have hc1 : inPoolWithCount (execOps p0 ops1).1 x 0 :=
    count_trace x 0 (by omega) ops1 p0 hwf ⟨e0, he0, hid0, hcnt0, hconn0⟩
      (fun now => h1 true now)
  obtain ⟨e1, he1, hid1, hcnt1, hconn1⟩ := hc1
  have hp1 : inPoolWithCount p1 x 1 :=
    release_true_keeps e1 he1 hid1 hcnt1 hconn1 (by omega) t1
  have hwfp1 : PoolWF p1 := hwf1.release x true t1
  have hwf2 : PoolWF (execOps p1 ops2).1 := execOps_wf ops2 p1 hwfp1
  have hc2 : inPoolWithCount (execOps p1 ops2).1 x 1 :=
    count_trace x 1 (by omega) ops2 p1 hwfp1 hp1 (fun now => h2 true now)
  obtain ⟨e2, he2, hid2, hcnt2, hconn2⟩ := hc2
  have hp2 : inPoolWithCount p2 x 2 :=
    release_true_keeps e2 he2 hid2 hcnt2 hconn2 (by omega) t2
  have hwfp2 : PoolWF p2 := hwf2.release x true t2
  obtain ⟨e3, he3, hid3, hcnt3, hconn3⟩ := hp2
  have hev := release_evicts hwfp2 e3 he3 hid3 hcnt3 (by omega) t3
  have hgone : goneFrom p3 x := by
    refine ⟨hev.1, ?_⟩
    exact hwfp2.1 x (by
      simp only [BrowserPool.ids, List.mem_map]
      exact ⟨e3, he3, hid3⟩)
  have htr := gone_trace x ops3 p3 hgone
  exact ⟨hp1, ⟨e3, he3, hid3, hcnt3, hconn3⟩, hev.1, hev.2, htr.2⟩

/-- A concrete pool for the C4 / C10 witnesses: one connected instance with
no recorded errors. -/
def errPoolW : BrowserPool :=
  { max_browsers := 1,
    instances := [{ instance_id := 1, in_use := true, task_id := some "t", error_count := 0, connected := true, created_at := 0, last_used_at := 0 }],
    instance_counter := 1, initialized := true, closed := [] }

theorem claim_C4_witness :
    inPoolWithCount (release_browser_instance errPoolW 1 true 5) 1 1 ∧
      inPoolWithCount (release_browser_instance
        (release_browser_instance errPoolW 1 true 5) 1 true 6) 1 2 ∧
      (1 : Nat) ∉ (release_browser_instance (release_browser_instance
        (release_browser_instance errPoolW 1 true 5) 1 true 6) 1 true 7).ids ∧
      (1 : Nat) ∈ (release_browser_instance (release_browser_instance
        (release_browser_instance errPoolW 1 true 5) 1 true 6) 1 true 7).closed ∧
      (1 : Nat) ∉ (execOps (release_browser_instance (release_browser_instance
        (release_browser_instance errPoolW 1 true 5) 1 true 6) 1 true 7)
        [PoolOp.acquire "u" 8 true]).2 :=
  claim_C4_three_consecutive_errors_evict errPoolW (by decide) 1
    { instance_id := 1, in_use := true, task_id := some "t", error_count := 0, connected := true, created_at := 0, last_used_at := 0 }
    (by decide) rfl rfl rfl [] [] [PoolOp.acquire "u" 8 true]
    (fun he now hmem => List.not_mem_nil _ hmem)
    (fun he now hmem => List.not_mem_nil _ hmem) 5 6 7

/-- **C10.** A `BrowserInstance`'s `error_count` is never decreased:
`get_browser_instance` critical sections and error-free releases leave it
unchanged (it is never reset), and consequently any three releases with
`had_error = true` over the instance's lifetime — even separated by
error-free releases — evict and close it, after which it is never returned
to any caller. -/
theorem claim_C10_error_count_monotone :
    (∀ (p : BrowserPool) (x c : Nat), PoolWF p → inPoolWithCount p x c → c < 3 →
        ∀ op : PoolOp, (∀ now, op ≠ .release x true now) →
        inPoolWithCount (poolStep p op).1 x c) ∧
      ∀ (p0 : BrowserPool), PoolWF p0 → ∀ (x : Nat) (e0 : BrowserInstance),
        e0 ∈ p0.instances → e0.instance_id = x → e0.error_count = 0 →
        e0.connected = true → ∀ (ops1 ops2 ops3 : List PoolOp),
        (∀ now, PoolOp.release x true now ∉ ops1) →
        (∀ now, PoolOp.release x true now ∉ ops2) →
        ∀ (t1 t2 t3 : Nat),
        let p1 := release_browser_instance (execOps p0 ops1).1 x true t1
        let p2 := release_browser_instance (execOps p1 ops2).1 x true t2
        let p3 := release_browser_instance p2 x true t3
        inPoolWithCount p1 x 1 ∧ inPoolWithCount p2 x 2 ∧
          x ∉ p3.ids ∧ x ∈ p3.closed ∧ x ∉ (execOps p3 ops3).2 := by
  constructor
  · intro p x c hwf hc hlt op hop
    exact count_step hwf hc hlt op hop
  · intro p0 hwf x e0 he0 hid0 hcnt0 hconn0 ops1 ops2 ops3 h1 h2 t1 t2 t3 p1 p2 p3
    have hwf1 : PoolWF (execOps p0 ops1).1 := execOps_wf ops1 p0 hwf
    have hc1 : inPoolWithCount (execOps p0 ops1).1 x 0 :=
      count_trace x 0 (by omega) ops1 p0 hwf ⟨e0, he0, hid0, hcnt0, hconn0⟩ h1
    obtain ⟨e1, he1, hid1, hcnt1, hconn1⟩ := hc1
    have hp1 : inPoolWithCount p1 x 1 :=
      release_true_keeps e1 he1 hid1 hcnt1 hconn1 (by omega) t1
    have hwfp1 : PoolWF p1 := hwf1.release x true t1
    have hwf2 : PoolWF (execOps p1 ops2).1 := execOps_wf ops2 p1 hwfp1
    have hc2 : inPoolWithCount (execOps p1 ops2).1 x 1 :=
      count_trace x 1 (by omega) ops2 p1 hwfp1 hp1 h2
    obtain ⟨e2, he2, hid2, hcnt2, hconn2⟩ := hc2
    have hp2 : inPoolWithCount p2 x 2 :=
      release_true_keeps e2 he2 hid2 hcnt2 hconn2 (by omega) t2
    have hwfp2 : PoolWF p2 := hwf2.release x true t2
    obtain ⟨e3, he3, hid3, hcnt3, hconn3⟩ := hp2
    have hev := release_evicts hwfp2 e3 he3 hid3 hcnt3 (by omega) t3
    have hgone : goneFrom p3 x := by
      refine ⟨hev.1, ?_⟩
      exact hwfp2.1 x (by
        simp only [BrowserPool.ids, List.mem_map]
        exact ⟨e3, he3, hid3⟩)
    have htr := gone_trace x ops3 p3 hgone
    exact ⟨hp1, ⟨e3, he3, hid3, hcnt3, hconn3⟩, hev.1, hev.2, htr.2⟩

theorem claim_C10_witness :
    inPoolWithCount (poolStep errPoolW (PoolOp.release 1 false 4)).1 1 0 ∧
      inPoolWithCount (release_browser_instance
        (execOps (release_browser_instance errPoolW 1 true 5)
          [PoolOp.release 1 false 6]).1 1 true 7) 1 2 :=
  ⟨claim_C10_error_count_monotone.1 errPoolW 1 0 (by decide) (by decide) (by omega)
      (PoolOp.release 1 false 4) (fun now h => by simp at h),
    (claim_C10_error_count_monotone.2 errPoolW (by decide) 1
      { instance_id := 1, in_use := true, task_id := some "t", error_count := 0, connected := true, created_at := 0, last_used_at := 0 }
      (by decide) rfl rfl rfl [] [PoolOp.release 1 false 6] []
      (fun now hmem => List.not_mem_nil _ hmem)
      (fun now hmem => by simp at hmem) 5 7 9).2.1⟩

/-! ## Dynamic agent (`src/core/planner.py`, class `DynamicAutomationAgent`) -/

/-- What the environment makes of one loop iteration of `run_dynamic`:
the decision step fails (`_decide_next_action` returns `None`), the LLM
declares the goal achieved or emits a final answer, the iteration raises
an exception, or `_execute_with_correction` returns a result whose
`status` field is the given string. -/
inductive StepOutcome where
  | decideFail
  | goalAchieved
  | finalAnswer (ans : String)
  | raised (msg : String)
  | exec (status : String)
  deriving Repr, DecidableEq

/-- The terminal situations of a `run_dynamic` run. -/
inductive TerminalState where
  | goalAchieved
  | stepLimit
  | decisionFailed
  | criticalFailure
  | exceptionRaised
  deriving Repr, DecidableEq

/-- The observable footprint of one `run_dynamic` call: how it ended, how
many steps ran, and the `release_browser_instance` calls it issued —
each as (instance id, `had_error` argument). -/
structure RunTrace where
  terminal : TerminalState
  stepsTaken : Nat
  releases : List (Nat × Bool)
  deriving Repr, DecidableEq

/-- The `while step_count < self.max_steps and not goal_achieved` loop of
`run_dynamic`.  `script n` is the environment's outcome for step `n`
(1-based).  Mirrors the source order: decision failure breaks the loop;
`goal_achieved` / `final_answer` set `goal_achieved` and break; an
exception propagates to the `except` clause of `run_dynamic`; an
execution result with status `"critical_failure"` breaks; any other
status continues the loop. -/
def runLoop (maxSteps : Nat) (script : Nat → StepOutcome) (stepCount : Nat) :
    TerminalState × Nat :=
  if stepCount < maxSteps then
    match script (stepCount + 1) with
    | .decideFail => (.decisionFailed, stepCount + 1)
    | .goalAchieved => (.goalAchieved, stepCount + 1)
    | .finalAnswer _ => (.goalAchieved, stepCount + 1)
    | .raised _ => (.exceptionRaised, stepCount + 1)
    | .exec status =>
      if status = "critical_failure" then (.criticalFailure, stepCount + 1)
      else runLoop maxSteps script (stepCount + 1)
  else (.stepLimit, stepCount)
termination_by maxSteps - stepCount
decreasing_by omega

/-- The `finally:` block of `run_dynamic`:
`if browser_instance and pool: await pool.release_browser_instance(browser_instance)`.
The call passes no `had_error` argument, so the Python default
`had_error=False` applies on every path. -/
def finallyRelease (acquired : Option Nat) : List (Nat × Bool) :=
  match acquired with
  | some iid => [(iid, false)]
  | none => []

/-- `DynamicAutomationAgent.run_dynamic`, reduced to its control flow:
acquire a browser instance (`acquire = some iid` when
`pool.get_browser_instance` succeeds; `none` when it raises, in which case
`browser_instance` stays `None`), run the loop, catch any exception in the
`except` clause, and always run the `finally:` release.  The browser
work inside each iteration is the environment `script`. -/
def run_dynamic (maxSteps : Nat) (acquire : Option Nat)
    (script : Nat → StepOutcome) : RunTrace :=
  match acquire with
  | none => { terminal := .exceptionRaised, stepsTaken := 0, releases := finallyRelease none }
  | some iid =>
    match runLoop maxSteps script 0 with
    | (t, n) => { terminal := t, stepsTaken := n, releases := finallyRelease (some iid) }

/-! ## Self-correction retry (`_execute_with_correction`, C9) -/

/-- Result dictionary of `_execute_with_correction`: its `status`,
`attempts` and (on success) `result` fields. -/
structure CorrectionResult where
  status : String
  attempts : Nat
  result : Option String
  deriving Repr, DecidableEq

/-- The `while attempt <= max_retries` loop of `_execute_with_correction`.
`execRes n a` is the outcome of `executor.execute_intelligent_step` at
attempt number `n` (0-based) on action `a` (`Except.error e` models a
raised exception); `correct a e` is what `_ask_for_correction` returns for
failed action `a` and error `e` (`none` models `give_up` or an unusable
reply). -/
def executeWithCorrectionLoop (enableSelfCorrection : Bool) (maxRetries : Nat)
    (execRes : Nat → String → Except String String)
    (correct : String → String → Option String) (attempt : Nat) (action : String) :
    CorrectionResult :=
  if attempt ≤ maxRetries then
    match execRes attempt action with
    | .ok r => { status := "success", attempts := attempt + 1, result := some r }
    | .error e =>
      if !enableSelfCorrection || maxRetries ≤ attempt then
        { status := "failed", attempts := attempt + 1, result := none }
      else
        match correct action e with
        | some corrected =>
          executeWithCorrectionLoop enableSelfCorrection maxRetries execRes correct
            (attempt + 1) corrected
        | none => { status := "correction_failed", attempts := attempt + 1, result := none }
  else { status := "failed_after_retries", attempts := maxRetries + 1, result := none }
termination_by maxRetries + 1 - attempt
decreasing_by omega

/-- `DynamicAutomationAgent._execute_with_correction`, starting at
`attempt = 0` on the initially decided action. -/
def execute_with_correction (enableSelfCorrection : Bool) (maxRetries : Nat)
    (execRes : Nat → String → Except String String)
    (correct : String → String → Option String) (action : String) : CorrectionResult :=
  executeWithCorrectionLoop enableSelfCorrection maxRetries execRes correct 0 action

/-! ## Claim C1: release on every exit path, `had_error` flag -/

/-- C1 counterexample: a run whose terminal state is a decision failure —
and likewise one whose terminal state is a critical failure — releases its
browser instance with `had_error = false` (the Python call site
`pool.release_browser_instance(browser_instance)` in the `finally:` block
never passes `had_error`), so the claim that the release carries
`had_error = true` for these terminal states is false. -/
theorem claim_C1_counterexample :
    (run_dynamic 5 (some 1) (fun _ => .decideFail)).terminal
        = TerminalState.decisionFailed ∧
      (run_dynamic 5 (some 1) (fun _ => .decideFail)).releases = [(1, false)] ∧
      (1, true) ∉ (run_dynamic 5 (some 1) (fun _ => .decideFail)).releases ∧
      (run_dynamic 5 (some 1) (fun _ => .exec "critical_failure")).terminal
        = TerminalState.criticalFailure ∧
      (run_dynamic 5 (some 1) (fun _ => .exec "critical_failure")).releases
        = [(1, false)] := by
  refine ⟨?_, ?_, ?_, ?_, ?_⟩ <;>
    simp [run_dynamic, runLoop, finallyRelease]

/-- **C1 (amended).** Every run of `run_dynamic` that successfully
acquires a browser instance releases it exactly once on every exit path
(goal achieved, step limit, decision failure, critical failure, or an
exception raised inside the loop) — but the release always passes the
default `had_error = false`, even when the run ended in a critical or
decision failure; when acquisition itself fails no release happens. -/
theorem claim_C1_release_exactly_once :
    ∀ (maxSteps : Nat) (script : Nat → StepOutcome),
      (∀ iid : Nat, (run_dynamic maxSteps (some iid) script).releases = [(iid, false)]) ∧
        (run_dynamic maxSteps none script).releases = [] := by
  intro maxSteps script
  constructor
  · intro iid
    unfold run_dynamic
    rcases runLoop maxSteps script 0 with ⟨t, n⟩
    rfl
  · rfl

/-! ## Claim C9: one failure, one corrected retry, success -/

/-- **C9.** When self-correction is enabled with at least one correction
attempt remaining, an action whose first execution raises, whose
correction call returns a replacement action, and whose retry succeeds,
yields a result with `status = "success"` and `attempts = 2`. -/
theorem claim_C9_corrected_retry_success
    (maxRetries : Nat) (hmr : 1 ≤ maxRetries)
    (execRes : Nat → String → Except String String)
    (correct : String → String → Option String)
    (a0 a1 e r : String)
    (h0 : execRes 0 a0 = .error e)
    (hc : correct a0 e = some a1)
    (h1 : execRes 1 a1 = .ok r) :
    execute_with_correction true maxRetries execRes correct a0
      = { status := "success", attempts := 2, result := some r } := by
  unfold execute_with_correction
  unfold executeWithCorrectionLoop
  rw [if_pos (by omega)]
  rw [h0]
  dsimp only
  rw [if_neg (by simp; omega)]
  rw [hc]
  dsimp only
  unfold executeWithCorrectionLoop
  rw [if_pos (by omega)]
  rw [h1]

theorem claim_C9_witness :
    execute_with_correction true 2
      (fun n _ => if n = 0 then .error "boom" else .ok "done")
      (fun _ _ => some "retry") "click"
      = { status := "success", attempts := 2, result := some "done" } :=
  claim_C9_corrected_retry_success 2 (by omega)
    (fun n _ => if n = 0 then .error "boom" else .ok "done")
    (fun _ _ => some "retry") "click" "retry" "boom" "done" rfl rfl rfl

/-! ## Element finder (`src/core/element_finder.py`) -/

/-- A DOM node as seen by the selector-generating page scripts: its
attributes and its 1-based position among same-tag siblings (the computed
`siblings.indexOf(element) + 1`).  An absent attribute is the empty string
(falsy in JavaScript, as `getAttribute` returning null also is). -/
structure DomNode where
  id : String
  name : String
  className : String
  ariaLabel : String
  tagName : String
  hasParent : Bool
  sameTagSiblingIndex : Nat
  deriving Repr, DecidableEq

/-- `generateBestSelector` from the `_get_interactive_elements` page
script: id, then name, then aria-label, then `tag:nth-child(position)`
when a parent exists, else the bare tag name. -/
def generateBestSelector (el : DomNode) : String :=
  if el.id ≠ "" then "#" ++ el.id
  else if el.name ≠ "" then "[name=\"" ++ el.name ++ "\"]"
  else if el.ariaLabel ≠ "" then "[aria-label=\"" ++ el.ariaLabel ++ "\"]"
  else if el.hasParent then
    el.tagName ++ ":nth-child(" ++ toString el.sameTagSiblingIndex ++ ")"
  else el.tagName

/-- The selector generation of the `_inject_visual_markers` page script:
id, then name, then `tag:nth-child(position)` where the position is 0
when the node has no parent (`siblings.indexOf(el) + 1` over an empty
sibling array). -/
def markerSelector (el : DomNode) : String :=
  if el.id ≠ "" then "#" ++ el.id
  else if el.name ≠ "" then "[name=\"" ++ el.name ++ "\"]"
  else
    el.tagName ++ ":nth-child(" ++
      toString (if el.hasParent then el.sameTagSiblingIndex else 0) ++ ")"

/-- Modelled from the spec: the locator-generation priority the
specification prescribes — "prefer a stable unique identifier attribute,
then a unique name attribute, then a unique class, then an aria-label
attribute, then a positional path (tag + nth-sibling-of-type chain) as
last resort — in that strict priority order".  The uniqueness checks the
spec requires are oracles (`uniqueId`, `uniqueName`, `uniqueClass`), since
the code performs none. -/
def specLocatorSelector (uniqueId uniqueName uniqueClass : Bool) (el : DomNode) : String :=
  if el.id ≠ "" ∧ uniqueId = true then "#" ++ el.id
  else if el.name ≠ "" ∧ uniqueName = true then "[name=\"" ++ el.name ++ "\"]"
  else if el.className ≠ "" ∧ uniqueClass = true then "." ++ el.className
  else if el.ariaLabel ≠ "" then "[aria-label=\"" ++ el.ariaLabel ++ "\"]"
  else el.tagName ++ ":nth-child(" ++ toString el.sameTagSiblingIndex ++ ")"

/-- A page element record handed to the matching tiers (the dictionaries
produced by `_get_interactive_elements`): absent string fields are `""`,
`posY` / `posHeight` are the `position.y` / `position.height` entries. -/
structure PageElement where
  tagName : String
  text : String
  placeholder : String
  ariaLabel : String
  title : String
  selector : String
  posY : Int
  posHeight : Int
  deriving Repr, DecidableEq

/-- Python `str.lower()` on the ASCII strings involved. -/
def pyLower (s : String) : String := ⟨s.data.map Char.toLower⟩

/-- Membership of a character list as a contiguous infix. -/
def listInfix (n : List Char) : List Char → Bool
  | [] => n.isEmpty
  | c :: rest => n.isPrefixOf (c :: rest) || listInfix n rest

/-- Python's substring containment test `needle in hay`. -/
def pyIn (needle hay : String) : Bool := listInfix needle.data hay.data

/-- Helper for `pySplit`: accumulate the current word (reversed). -/
def splitWordsAux : List Char → List Char → List String
  | [], acc => if acc.isEmpty then [] else [⟨acc.reverse⟩]
  | c :: rest, acc =>
    if c.isWhitespace then
      (if acc.isEmpty then [] else [⟨acc.reverse⟩]) ++ splitWordsAux rest []
    else splitWordsAux rest (c :: acc)

/-- Python `str.split()` with no arguments: split on whitespace runs,
dropping empty pieces. -/
def pySplit (s : String) : List String := splitWordsAux s.data []

/-- The `type_keywords` table of `_fallback_element_matching`. -/
def type_keywords (tag : String) : List String :=
  if tag = "button" then ["button", "click", "submit", "send"]
  else if tag = "input" then ["input", "field", "textbox", "enter", "type"]
  else if tag = "a" then ["link", "url", "navigate"]
  else if tag = "select" then ["dropdown", "select", "choose"]
  else []

/-- The per-element score of `_fallback_element_matching`.  `sim` is the
oracle standing for `difflib.SequenceMatcher(None, a, b).ratio()` (an
external library call); `0.6` and `int(similarity * 25)` become rational
arithmetic. -/
def fallbackScore (sim : String → String → ℚ) (descL : String) (e : PageElement) : Nat :=
  let textScore : Nat :=
    if e.text ≠ "" then
      if pyIn descL (pyLower e.text) then 30
      else
        if 3 / 5 < sim descL (pyLower e.text) then
          (sim descL (pyLower e.text) * 25).floor.toNat
        else 0
    else 0
  let placeholderScore : Nat :=
    if e.placeholder ≠ "" ∧ pyIn descL (pyLower e.placeholder) = true then 20 else 0
  let ariaScore : Nat :=
    if e.ariaLabel ≠ "" ∧ pyIn descL (pyLower e.ariaLabel) = true then 20 else 0
  let titleScore : Nat :=
    if e.title ≠ "" ∧ pyIn descL (pyLower e.title) = true then 15 else 0
  let typeScore : Nat :=
    if (type_keywords e.tagName).any (fun kw => pyIn kw descL) then 15 else 0
  let positionScore : Nat :=
    if pyIn "top" descL = true ∧ e.posY < 200 then 10
    else if pyIn "bottom" descL = true ∧ 600 < e.posY then 10
    else 0
  textScore + placeholderScore + ariaScore + titleScore + typeScore + positionScore

/-- `matches.sort(key=lambda x: x["score"], reverse=True)` followed by
taking the first entry: Python's sort is stable, so the result is the
earliest entry with the maximal score. -/
def selectBest : List (PageElement × Nat) → Option (PageElement × Nat)
  | [] => none
  | m :: rest => some (rest.foldl (fun best x => if best.2 < x.2 then x else best) m)

/-- The result dictionaries of the element-finding tiers: the success
shape (`success: True` with element, selector, confidence, and — when
produced by the DOM tiers — `total_scanned`), the all-tiers-failed shape
(`success: False` with `available_elements_count` and
`searched_strategies`), and the top-level error shape. -/
inductive ResolveResult where
  | found (element : PageElement) (selector : String) (confidence : String)
      (totalScanned : Option Nat)
  | notFound (availableElementsCount : Nat) (searchedStrategies : List String)
  | failedErr (error : String)
  deriving Repr, DecidableEq

/-- `IntelligentElementFinder._fallback_element_matching`. -/
def fallback_element_matching (sim : String → String → ℚ) (description : String)
    (elements : List PageElement) : ResolveResult :=
  let descL := pyLower description
  let matchList := (elements.map fun e => (e, fallbackScore sim descL e)).filter
    fun m => 0 < m.2
  match selectBest matchList with
  | some best =>
    .found best.1 best.1.selector (if 20 < best.2 then "medium" else "low")
      (some elements.length)
  | none => .notFound elements.length ["viewport", "relevance", "full scan"]

/-- `IntelligentElementFinder._filter_by_viewport`. -/
def filter_by_viewport (elements : List PageElement) : List PageElement :=
  elements.filter fun e =>
    decide (0 ≤ e.posY) && decide (e.posY < 1500) && decide (0 < e.posHeight)

/-- The keyword sets of `_filter_by_relevance`. -/
def relevance_action_keywords : List String :=
  ["button", "link", "input", "field", "box", "dropdown", "select", "menu"]

def relevance_position_keywords : List String :=
  ["top", "bottom", "left", "right", "main", "sidebar", "header", "footer"]

/-- The per-element relevance score of `_filter_by_relevance`.  Word sets
become deduplicated word lists; `overlap` counts distinct shared words. -/
def relevanceScore (descL : String) (descWords : List String) (e : PageElement) : Nat :=
  let actionHints := relevance_action_keywords.filter (fun kw => kw ∈ descWords)
  let positionHints := relevance_position_keywords.filter (fun kw => kw ∈ descWords)
  let textL := pyLower e.text
  let textScore : Nat :=
    if textL ≠ "" then
      (if pyIn descL textL then 50 else 0) +
        10 * (descWords.dedup.filter (fun w => w ∈ pySplit textL)).length
    else 0
  let attrScore : Nat :=
    (if pyIn descL (pyLower e.placeholder) then 40 else 0) +
      (if pyIn descL (pyLower e.ariaLabel) then 40 else 0)
  let typeScore : Nat :=
    if !actionHints.isEmpty then
      (if "button" ∈ actionHints ∧ e.tagName = "button" then 20 else 0) +
        (if "link" ∈ actionHints ∧ e.tagName = "a" then 20 else 0) +
        (if "input" ∈ actionHints ∧ e.tagName = "input" then 20 else 0)
    else 0
  let posScore : Nat :=
    if !positionHints.isEmpty then
      (if "top" ∈ positionHints ∧ e.posY < 200 then 15 else 0) +
        (if "bottom" ∈ positionHints ∧ 600 < e.posY then 15 else 0)
    else 0
  textScore + attrScore + typeScore + posScore

/-- Stable insertion (descending by score) for the relevance sort. -/
def insertScoredDesc (x : Nat × PageElement) :
    List (Nat × PageElement) → List (Nat × PageElement)
  | [] => [x]
  | y :: rest => if x.1 < y.1 then y :: insertScoredDesc x rest else x :: y :: rest

/-- `scored_elements.sort(key=lambda x: x[0], reverse=True)` (stable). -/
def sortScoredDesc : List (Nat × PageElement) → List (Nat × PageElement)
  | [] => []
  | x :: xs => insertScoredDesc x (sortScoredDesc xs)

/-- `IntelligentElementFinder._filter_by_relevance`. -/
def filter_by_relevance (elements : List PageElement) (description : String) :
    List PageElement :=
  let descL := pyLower description
  let descWords := pySplit descL
  let scored := (elements.map fun e => (relevanceScore descL descWords e, e)).filter
    fun s => 0 < s.1
  if scored.isEmpty then elements.take 150
  else ((sortScoredDesc scored).take 150).map (·.2)

/-- `IntelligentElementFinder._ai_powered_element_matching`.
`llm description strategy elems` is the integer the language model's reply
parses to (`none` for an unparsable reply or a raised exception); an
out-of-range or absent answer falls back to `_fallback_element_matching`
on the same candidate list, as in the source. -/
def ai_powered_element_matching (llm : String → String → List PageElement → Option Int)
    (sim : String → String → ℚ) (description : String)
    (elements : List PageElement) (strategy : String) : ResolveResult :=
  let elementsToAnalyze := elements.take 100
  match llm description strategy elementsToAnalyze with
  | some index =>
    if h : 0 ≤ index ∧ index.toNat < elementsToAnalyze.length then
      let selected := elementsToAnalyze.get ⟨index.toNat, h.2⟩
      .found selected selected.selector "high" (some elements.length)
    else fallback_element_matching sim description elements
  | none => fallback_element_matching sim description elements

/-- `match_result["success"]`. -/
def resolveSuccess : ResolveResult → Bool
  | .found _ _ _ _ => true
  | _ => false

/-- `IntelligentElementFinder.find_element_intelligently`: tier 1 on
viewport elements if any, tier 1 again on relevance-filtered elements if
any, tier 2 (vision, an external collaborator modelled by the `vision`
oracle) when enabled, tier 3 rule-based fallback on all elements.  The
second component records which tiers actually ran in this call
(instrumentation, used to compare against the reported
`searched_strategies`). -/
def find_element_intelligently (visionEnabled : Bool) (vision : Option PageElement)
    (llm : String → String → List PageElement → Option Int)
    (sim : String → String → ℚ) (description : String)
    (allElements : List PageElement) : ResolveResult × List String :=
  if allElements.isEmpty then (.failedErr "No interactive elements found", [])
  else
    let viewportElements := filter_by_viewport allElements
    let r1 := ai_powered_element_matching llm sim description viewportElements "viewport"
    let tried1 := !viewportElements.isEmpty
    if tried1 && resolveSuccess r1 then (r1, ["viewport"])
    else
      let log1 : List String := if tried1 then ["viewport"] else []
      let relevantElements := filter_by_relevance allElements description
      let r2 := ai_powered_element_matching llm sim description relevantElements "relevance"
      let tried2 := !relevantElements.isEmpty
      if tried2 && resolveSuccess r2 then (r2, log1 ++ ["relevance"])
      else
        let log2 := log1 ++ (if tried2 then ["relevance"] else [])
        if visionEnabled then
          match vision with
          | some el => (.found el el.selector "high" none, log2 ++ ["vision"])
          | none =>
            (fallback_element_matching sim description allElements,
              log2 ++ ["vision", "rule-based"])
        else
          (fallback_element_matching sim description allElements,
            log2 ++ ["rule-based"])

/-! ## Claim C5: selector generation priority -/

/-- C5 counterexample: for an element with no id and no name but with a
class (assume it unique) and an aria-label, the claimed priority order
(id, name, unique class, aria-label, positional) would produce the class
selector, but `generateBestSelector` produces the aria-label selector —
the code has no class rule at all.  Moreover the vision-marker generator
(`_inject_visual_markers`) skips even the aria-label rule and emits a
positional selector for the same attributes, so no single priority chain
with a class tier describes the generated locators. -/
theorem claim_C5_counterexample :
    generateBestSelector ⟨"", "", "btn", "close", "button", true, 2⟩
        = "[aria-label=\"close\"]" ∧
      specLocatorSelector true true true ⟨"", "", "btn", "close", "button", true, 2⟩
        = ".btn" ∧
      generateBestSelector ⟨"", "", "btn", "close", "button", true, 2⟩
        ≠ specLocatorSelector true true true ⟨"", "", "btn", "close", "button", true, 2⟩ ∧
      markerSelector ⟨"", "", "btn", "close", "button", true, 2⟩
        = "button:nth-child(2)" := by decide

/-- **C5 (amended).** The locator generated for the structural tiers
(`generateBestSelector`) follows the strict priority: id attribute first,
then name attribute, then aria-label, then a positional
`tag:nth-child(position)` path (bare tag when the node has no parent) —
with no class rule and no uniqueness checks; the vision-marker generator
uses only id, then name, then the positional path.  A later rule applies
only when every earlier rule is inapplicable. -/
theorem claim_C5_selector_priority (el : DomNode) :
    (el.id ≠ "" → generateBestSelector el = "#" ++ el.id) ∧
      (el.id = "" → el.name ≠ "" →
        generateBestSelector el = "[name=\"" ++ el.name ++ "\"]") ∧
      (el.id = "" → el.name = "" → el.ariaLabel ≠ "" →
        generateBestSelector el = "[aria-label=\"" ++ el.ariaLabel ++ "\"]") ∧
      (el.id = "" → el.name = "" → el.ariaLabel = "" → el.hasParent = true →
        generateBestSelector el
          = el.tagName ++ ":nth-child(" ++ toString el.sameTagSiblingIndex ++ ")") ∧
      (el.id = "" → el.name = "" → el.ariaLabel = "" → el.hasParent = false →
        generateBestSelector el = el.tagName) ∧
      (el.id = "" → el.name = "" →
        markerSelector el = el.tagName ++ ":nth-child(" ++
          toString (if el.hasParent then el.sameTagSiblingIndex else 0) ++ ")") := by
  unfold generateBestSelector markerSelector
  refine ⟨?_, ?_, ?_, ?_, ?_, ?_⟩ <;> intros <;> simp [*]

theorem claim_C5_witness :
    (⟨"", "nm", "", "", "input", true, 1⟩ : DomNode).id = "" ∧
      (⟨"", "nm", "", "", "input", true, 1⟩ : DomNode).name ≠ "" ∧
      generateBestSelector ⟨"", "nm", "", "", "input", true, 1⟩ = "[name=\"nm\"]" :=
  ⟨rfl, by decide,
    (claim_C5_selector_priority ⟨"", "nm", "", "", "input", true, 1⟩).2.1 rfl (by decide)⟩

/-! ## Claim C6: rule-based resolution of the Submit button -/

/-- Head of the descending sort is a member of the list. -/
theorem selectBest_mem (l : List (PageElement × Nat)) (b : PageElement × Nat)
    (h : selectBest l = some b) : b ∈ l := by
  cases l with
  | nil => simp [selectBest] at h
  | cons m rest =>
    simp only [selectBest, Option.some.injEq] at h
    subst h
    have : ∀ (start : PageElement × Nat) (xs : List (PageElement × Nat)),
        xs.foldl (fun best x => if best.2 < x.2 then x else best) start = start ∨
          xs.foldl (fun best x => if best.2 < x.2 then x else best) start ∈ xs := by
      intro start xs
      induction xs generalizing start with
      | nil => exact Or.inl rfl
      | cons y ys ih =>
        simp only [List.foldl_cons]
        rcases ih (if start.2 < y.2 then y else start) with h | h
        · rw [h]
          by_cases hc : start.2 < y.2
          · rw [if_pos hc]
            exact Or.inr (List.mem_cons_self _ _)
          · rw [if_neg hc]
            exact Or.inl rfl
        · exact Or.inr (List.mem_cons_of_mem _ h)
    rcases this m rest with h | h
    · rw [h]; exact List.mem_cons_self _ _
    · exact List.mem_cons_of_mem _ h

/-- Head of the descending sort carries the maximal score. -/
theorem selectBest_max (l : List (PageElement × Nat)) (b : PageElement × Nat)
    (h : selectBest l = some b) : ∀ m ∈ l, m.2 ≤ b.2 := by
  cases l with
  | nil => simp [selectBest] at h
  | cons m0 rest =>
    simp only [selectBest, Option.some.injEq] at h
    subst h
    have key : ∀ (start : PageElement × Nat) (xs : List (PageElement × Nat)),
        start.2 ≤ (xs.foldl (fun best x => if best.2 < x.2 then x else best) start).2 ∧
          ∀ x ∈ xs,
            x.2 ≤ (xs.foldl (fun best x => if best.2 < x.2 then x else best) start).2 := by
      intro start xs
      induction xs generalizing start with
      | nil => exact ⟨le_refl _, fun x hx => absurd hx (List.not_mem_nil _)⟩
      | cons y ys ih =>
        simp only [List.foldl_cons]
        obtain ⟨ih1, ih2⟩ := ih (if start.2 < y.2 then y else start)
        constructor
        · refine le_trans ?_ ih1
          by_cases hc : start.2 < y.2
          · rw [if_pos hc]; omega
          · rw [if_neg hc]
        · intro x hx
          rcases List.mem_cons.mp hx with hx | hx
          · subst hx
            refine le_trans ?_ ih1
            by_cases hc : start.2 < x.2
            · rw [if_pos hc]
            · rw [if_neg hc]; omega
          · exact ih2 x hx
    intro m hm
    rcases List.mem_cons.mp hm with hm | hm
    · subst hm; exact (key m rest).1
    · exact (key m0 rest).2 m hm

/-- What a `found` result of the rule-based tier contains. -/
theorem fallback_found_spec (sim : String → String → ℚ) (description : String)
    (elements : List PageElement) (e : PageElement) (sel conf : String)
    (n : Option Nat)
    (h : fallback_element_matching sim description elements = .found e sel conf n) :
    sel = e.selector ∧ n = some elements.length ∧
      0 < fallbackScore sim (pyLower description) e ∧
      conf = (if 20 < fallbackScore sim (pyLower description) e
        then "medium" else "low") ∧
      ∀ e' ∈ elements,
        fallbackScore sim (pyLower description) e'
          ≤ fallbackScore sim (pyLower description) e := by
  unfold fallback_element_matching at h
  dsimp only at h
  rcases hsel : selectBest ((elements.map fun e =>
      (e, fallbackScore sim (pyLower description) e)).filter fun m => 0 < m.2)
    with _ | best
  · rw [hsel] at h
    simp at h
  · rw [hsel] at h
    simp only [ResolveResult.found.injEq] at h
    obtain ⟨he, hs, hc, hn⟩ := h
    have hmem := selectBest_mem _ _ hsel
    have hmax := selectBest_max _ _ hsel
    have hfl := List.mem_of_mem_filter hmem
    have hpos := List.of_mem_filter hmem
    obtain ⟨a, ha, hae⟩ := List.mem_map.mp hfl
    have hba : best.1 = a := by rw [← hae]
    have hea : e = a := by rw [← he, hba]
    have hfe : fallbackScore sim (pyLower description) e = best.2 := by
      rw [hea, ← hae]
    refine ⟨?_, hn.symm, ?_, ?_, ?_⟩
    · rw [← hs, he]
    · rw [hfe]
      simpa using hpos
    · rw [hfe]
      exact hc.symm
    · intro e' he'
      rw [hfe]
      by_cases hp : 0 < fallbackScore sim (pyLower description) e'
      · exact hmax _ (List.mem_filter.mpr ⟨List.mem_map_of_mem _ he', by simpa using hp⟩)
      · omega

/-- The single-candidate Submit button of the spec's scenario. -/
def submitButtonW : PageElement :=
  { tagName := "button", text := "Submit", placeholder := "", ariaLabel := "",
    title := "", selector := "#submit", posY := 0, posHeight := 30 }

/-- **C6.** With no external language-model tier involved, rule-based
resolution of `[{tag: button, text: "Submit", selector: "#submit"}]`
against description `"Submit"` succeeds and returns selector `#submit`
with confidence `"medium"` (its score 45 exceeds the threshold 20); and in
general every rule-based match returns the highest-scoring candidate with
positive score, with confidence `"medium"` exactly when the best score
exceeds 20, else `"low"`. -/
theorem claim_C6_rule_based_submit :
    (∀ sim : String → String → ℚ,
        fallback_element_matching sim "Submit" [submitButtonW]
          = .found submitButtonW "#submit" "medium" (some 1)) ∧
      ∀ (sim : String → String → ℚ) (description : String)
        (elements : List PageElement) (e : PageElement) (sel conf : String)
        (n : Option Nat),
        fallback_element_matching sim description elements = .found e sel conf n →
        sel = e.selector ∧ n = some elements.length ∧
          0 < fallbackScore sim (pyLower description) e ∧
          conf = (if 20 < fallbackScore sim (pyLower description) e
            then "medium" else "low") ∧
          ∀ e' ∈ elements,
            fallbackScore sim (pyLower description) e'
              ≤ fallbackScore sim (pyLower description) e := by
  constructor
  · intro sim
    rfl
  · intro sim description elements e sel conf n h
    exact fallback_found_spec sim description elements e sel conf n h

theorem claim_C6_witness :
    "#submit" = submitButtonW.selector ∧
      (some 1 : Option Nat) = some ([submitButtonW] : List PageElement).length ∧
      0 < fallbackScore (fun _ _ => (0 : ℚ)) (pyLower "Submit") submitButtonW ∧
      "medium" = (if 20 < fallbackScore (fun _ _ => (0 : ℚ)) (pyLower "Submit")
        submitButtonW then "medium" else "low") ∧
      ∀ e' ∈ ([submitButtonW] : List PageElement),
        fallbackScore (fun _ _ => (0 : ℚ)) (pyLower "Submit") e'
          ≤ fallbackScore (fun _ _ => (0 : ℚ)) (pyLower "Submit") submitButtonW :=
  claim_C6_rule_based_submit.2 (fun _ _ => 0) "Submit" [submitButtonW] submitButtonW
    "#submit" "medium" (some 1) (claim_C6_rule_based_submit.1 (fun _ _ => 0))

/-! ## Claim C7: the all-tiers-failed diagnostic -/

/-- A `notFound` from the rule-based tier always carries the candidate
count and the hard-coded strategy list. -/
theorem fallback_notFound_payload (sim : String → String → ℚ) (description : String)
    (elements : List PageElement) (c : Nat) (strats : List String)
    (h : fallback_element_matching sim description elements = .notFound c strats) :
    c = elements.length ∧ strats = ["viewport", "relevance", "full scan"] := by
  unfold fallback_element_matching at h
  dsimp only at h
  rcases hsel : selectBest ((elements.map fun e =>
      (e, fallbackScore sim (pyLower description) e)).filter fun m => 0 < m.2)
    with _ | best
  · rw [hsel] at h
    simp only [ResolveResult.notFound.injEq] at h
    exact ⟨h.1.symm, h.2.symm⟩
  · rw [hsel] at h
    simp at h

/-- **C7 (amended).** When `find_element_intelligently` fails to match in
every tier, its failure value carries the count of all elements considered
— but the `searched_strategies` list is the hard-coded constant
`["viewport", "relevance", "full scan"]`, independent of which tiers
actually ran in that call. -/
theorem claim_C7_not_found_payload
    (visionEnabled : Bool) (vision : Option PageElement)
    (llm : String → String → List PageElement → Option Int)
    (sim : String → String → ℚ) (description : String)
    (allElements : List PageElement) (c : Nat) (strats : List String)
    (h : (find_element_intelligently visionEnabled vision llm sim description
        allElements).1 = .notFound c strats) :
    c = allElements.length ∧ strats = ["viewport", "relevance", "full scan"] := by
  unfold find_element_intelligently at h
  by_cases hemp : allElements.isEmpty
  · rw [if_pos hemp] at h
    simp at h
  · rw [if_neg hemp] at h
    dsimp only at h
    split at h
    · rename_i hc
      dsimp only at h
      rw [h] at hc
      simp [resolveSuccess] at hc
    · split at h
      · rename_i hc
        dsimp only at h
        rw [h] at hc
        simp [resolveSuccess] at hc
      · split at h
        · rcases vision with _ | el
          · dsimp only at h
            exact fallback_notFound_payload _ _ _ _ _ h
          · dsimp only at h
            simp at h
        · dsimp only at h
          exact fallback_notFound_payload _ _ _ _ _ h

/-- An element outside the viewport (`y < 0`), matching nothing. -/
def offscreenDivW : PageElement :=
  { tagName := "div", text := "", placeholder := "", ariaLabel := "",
    title := "", selector := "div:nth-child(1)", posY := -50, posHeight := 30 }

/-- C7 counterexample: a call in which the viewport tier never ran (no
element is in the viewport) and vision is disabled still reports
`searched_strategies = ["viewport", "relevance", "full scan"]`, which
differs from the tiers actually attempted (`relevance` and the rule-based
full scan) — so the reported list is a fixed constant, not the list of
tiers attempted during the call. -/
theorem claim_C7_counterexample :
    find_element_intelligently false none (fun _ _ _ => none) (fun _ _ => 0)
        "qqq" [offscreenDivW]
      = (.notFound 1 ["viewport", "relevance", "full scan"],
          ["relevance", "rule-based"]) ∧
      ("viewport" : String) ∉ (["relevance", "rule-based"] : List String) ∧
      (["viewport", "relevance", "full scan"] : List String)
        ≠ ["relevance", "rule-based"] := by
  refine ⟨rfl, by decide, by decide⟩

theorem claim_C7_witness :
    (1 : Nat) = ([offscreenDivW] : List PageElement).length ∧
      (["viewport", "relevance", "full scan"] : List String)
        = ["viewport", "relevance", "full scan"] :=
  claim_C7_not_found_payload false none (fun _ _ _ => none) (fun _ _ => 0) "qqq"
    [offscreenDivW] 1 ["viewport", "relevance", "full scan"] rfl

/-! ## Tab manager (`src/core/tab_manager.py`) -/

/-- State of a `TabManager`: the `tabs` dict (an insertion-ordered map
from tab index to page handle; the page handle is identified by its tab
index), `active_tab_index`, the monotone `_tab_counter`, and the log of
indices whose underlying page's `close()` was called. -/
structure TabManager where
  tabs : List Nat
  activeTabIndex : Nat
  tabCounter : Nat
  closedPages : List Nat
  deriving Repr, DecidableEq

/-- The result dictionary of `TabManager.close_tab`. -/
inductive TabResult where
  | ok (closedTab : Nat) (activeTab : Nat) (remainingTabs : Nat)
  | err (msg : String)
  deriving Repr, DecidableEq

/-- `TabManager._register_tab`: allocate the next index, store the page,
make it active. -/
def register_tab (s : TabManager) : Nat × TabManager :=
  (s.tabCounter,
    { s with
      tabs := s.tabs ++ [s.tabCounter]
      tabCounter := s.tabCounter + 1
      activeTabIndex := s.tabCounter })

/-- `TabManager.close_tab`: default the index to the active tab; fail if
the index is unknown; refuse to close the last remaining tab; otherwise
close the page, remove the index from `tabs`, and if the active tab was
closed fall back to the first remaining index. -/
def close_tab (s : TabManager) (tabIndex : Option Nat) : TabResult × TabManager :=
  let idx := tabIndex.getD s.activeTabIndex
  if idx ∉ s.tabs then
    (.err ("Tab " ++ toString idx ++ " not found"), s)
  else if s.tabs.length = 1 then
    (.err "Cannot close the last remaining tab", s)
  else
    let remaining := s.tabs.filter fun t => t ≠ idx
    let newActive :=
      if s.activeTabIndex = idx then
        match remaining with
        | [] => s.activeTabIndex
        | r :: _ => r
      else s.activeTabIndex
    let s' : TabManager :=
      { s with
        tabs := remaining
        activeTabIndex := newActive
        closedPages := s.closedPages ++ [idx] }
    (.ok idx newActive remaining.length, s')

/-- **C8.** On a `TabManager` with exactly one registered tab, `close_tab`
— with any index argument or none — returns a failure result and has no
side effects: the tabs map, the active tab index, the tab count, and the
set of closed pages are all unchanged (in particular the underlying page
is not closed). -/
theorem claim_C8_close_last_tab_fails (s : TabManager) (arg : Option Nat)
    (h : s.tabs.length = 1) :
    (∃ msg, (close_tab s arg).1 = .err msg) ∧ (close_tab s arg).2 = s := by
  unfold close_tab
  dsimp only
  by_cases hmem : (arg.getD s.activeTabIndex) ∈ s.tabs
  · rw [if_neg (not_not_intro hmem), if_pos h]
    exact ⟨⟨_, rfl⟩, rfl⟩
  · rw [if_pos hmem]
    exact ⟨⟨_, rfl⟩, rfl⟩

theorem claim_C8_witness :
    (∃ msg, (close_tab ⟨[0], 0, 1, []⟩ none).1 = TabResult.err msg) ∧
      (close_tab ⟨[0], 0, 1, []⟩ none).2 = (⟨[0], 0, 1, []⟩ : TabManager) ∧
      (∃ msg, (close_tab ⟨[0], 0, 1, []⟩ (some 5)).1 = TabResult.err msg) ∧
      (close_tab ⟨[0], 0, 1, []⟩ (some 5)).2 = (⟨[0], 0, 1, []⟩ : TabManager) := by
  obtain ⟨h1, h2⟩ := claim_C8_close_last_tab_fails ⟨[0], 0, 1, []⟩ none rfl
  obtain ⟨h3, h4⟩ := claim_C8_close_last_tab_fails ⟨[0], 0, 1, []⟩ (some 5) rfl
  exact ⟨h1, h2, h3, h4⟩

end BrowserControl
